import Mathlib

/-!
# OpenDiablo2: the asset facade (`d2core/d2asset/d2asset.go`) and the level-type
# table loader (`d2common/d2data/d2datadict/level_types.go`)

A shallow embedding of the two Go files and the verification of their
natural-language specification.

Conventions of the embedding

* A Go `string` is a Lean `String` (the sources only split on the ASCII
  separators `"\r\n"` and `"\t"` and compare against ASCII literals).
* A Go panic is a value of `Panic`; a computation that can panic returns a
  `Result`, which keeps the state reached at the moment of the panic.
* Package-level variables (`LevelTypes`, `singleton`) are fields of an explicit
  state that is passed in and out.
-/

namespace OpenDiablo2

/-- The slices indexed by `LoadLevelTypes`; used to tell the bounds checks apart. -/
inductive Slice where
  | data
  | parts
  | LevelTypes
deriving DecidableEq, Repr

/-- Go panics raised by the two files: the runtime errors
`index out of range [idx] with length len` (on one of the slices) and
`invalid memory address or nil pointer dereference`, and the two error values
`ErrNotInit` / `ErrWasInit` the asset facade panics with. -/
inductive Panic where
  | indexOutOfRange (slice : Slice) (idx : Int) (len : Nat)
  | nilDereference
  | ErrNotInit
  | ErrWasInit
deriving DecidableEq, Repr

/-- Outcome of running Go code on a state of type `σ`: normal completion,
a panic (with the state reached when it was raised), or the loop budget of the
embedding being exhausted. -/
inductive Result (σ : Type) where
  | ok (s : σ)
  | panic (p : Panic) (s : σ)
  | timeout
deriving DecidableEq, Repr

/-- Sequencing of statements: a panic or a timeout aborts what follows. -/
def Result.bind {σ : Type} (r : Result σ) (k : σ → Result σ) : Result σ :=
  match r with
  | .ok s => k s
  | .panic p s => .panic p s
  | .timeout => .timeout

/-- The state a run ended in (completion or panic), if it ended. -/
def Result.final? {σ : Type} : Result σ → Option σ
  | .ok s => some s
  | .panic _ s => some s
  | .timeout => none

/-! ## `strings.Split` (Go standard library) -/

namespace strings

/-- Scanner behind `Split`: `skip` counts the characters of a matched separator
still to be dropped, `cur` is the field being read (reversed). At each position
outside a separator the leftmost match of `sep` ends the current field, as
`strings.Index` does in `genSplit`. -/
def splitAux (sep : List Char) : List Char → Nat → List Char → List (List Char)
  | [], _, cur => [cur.reverse]
  | _ :: rest, skip + 1, cur => splitAux sep rest skip cur
  | c :: rest, 0, cur =>
    if sep.isPrefixOf (c :: rest) then
      cur.reverse :: splitAux sep rest (sep.length - 1) []
    else
      splitAux sep rest 0 (c :: cur)

/-- The call `strings.Split(s, sep)` for a non-empty separator: the substrings of `s`
between the non-overlapping occurrences of `sep`, found left to right. -/
def Split (s sep : String) : List String :=
  (splitAux sep.data s.data 0 []).map String.mk

end strings

/-! ## `d2common.StringToInt` -/

namespace d2common

/-- Value of a run of decimal digits read left to right, `none` on any other character. -/
def digitsValue : List Char → Nat → Option Nat
  | [], acc => some acc
  | c :: cs, acc =>
    if c.isDigit then digitsValue cs (acc * 10 + (c.toNat - 48)) else none

/-- Modelled from the spec: `d2common.StringToInt` is not among the sources; the
specification only shows it reading the fields `"5"` and `"1"` as the integers 5 and 1.
It is modelled as the decimal reading of the field with an optional sign, and 0 for a
field that is not a decimal integer. The theorems about the loader take the conversion as
a parameter; this model only instantiates them on examples. -/
def StringToInt (text : String) : Int :=
  match text.data with
  | [] => 0
  | '-' :: cs => if cs.isEmpty then 0 else - ((digitsValue cs 0).getD 0 : Nat)
  | '+' :: cs => if cs.isEmpty then 0 else ((digitsValue cs 0).getD 0 : Nat)
  | cs => ((digitsValue cs 0).getD 0 : Nat)

end d2common

/-! ## `d2datadict`: the level-type table -/

namespace d2datadict

/-- The Go struct `LevelTypeRecord`; `Files` is the array `[32]string`. -/
structure LevelTypeRecord where
  Name : String
  ID : Int
  Files : List String
  Beta : Bool
  Act : Int
  Expansion : Bool
deriving DecidableEq, Repr

/-- The zero value of `LevelTypeRecord`, as produced by `make`. -/
def LevelTypeRecord.zero : LevelTypeRecord :=
  { Name := "", ID := 0, Files := List.replicate 32 "", Beta := false, Act := 0,
    Expansion := false }

/-- Package state touched by `LoadLevelTypes`: the variable `LevelTypes` and the
lines written with `log.Printf`. -/
structure State where
  LevelTypes : List LevelTypeRecord
  log : List String
deriving DecidableEq, Repr

/-- Local variables of the loop of `LoadLevelTypes` (`i`, `j`, the counter `idx`
behind the closure `inc`) together with the table being filled. -/
structure LoopState where
  i : Nat
  j : Int
  idx : Int
  LevelTypes : List LevelTypeRecord
deriving DecidableEq, Repr

/-- Go indexing `xs[k]` with a signed index: `none` is the bounds-check failure. -/
def index? {α : Type} (xs : List α) (k : Int) : Option α :=
  if 0 ≤ k then xs[k.toNat]? else none

/-- The store `LevelTypes[j] = f(LevelTypes[j])`; `none` is the bounds-check failure. -/
def storeAt (lt : List LevelTypeRecord) (j : Int)
    (f : LevelTypeRecord → LevelTypeRecord) : Option (List LevelTypeRecord) :=
  match index? lt j with
  | none => none
  | some r => some (lt.set j.toNat (f r))

/-- One statement of the shape `LevelTypes[j].X = g(parts[inc()])`: `inc()` bumps
`idx`, `parts[idx]` is read (right-hand side first), then the field of
`LevelTypes[j]` is written through `put`. -/
def assign (parts : List String) (put : String → LevelTypeRecord → LevelTypeRecord)
    (s : LoopState) : Result LoopState :=
  let idx := s.idx + 1
  match index? parts idx with
  | none => .panic (.indexOutOfRange .parts idx parts.length) { s with idx := idx }
  | some v =>
    match storeAt s.LevelTypes s.j (put v) with
    | none =>
      .panic (.indexOutOfRange .LevelTypes s.j s.LevelTypes.length) { s with idx := idx }
    | some lt => .ok { s with idx := idx, LevelTypes := lt }

/-- The statement `if LevelTypes[j].Files[fileIdx] == "0" { LevelTypes[j].Files[fileIdx] = "" }`. -/
def zeroToEmpty (fileIdx : Nat) (s : LoopState) : Result LoopState :=
  match index? s.LevelTypes s.j with
  | none => .panic (.indexOutOfRange .LevelTypes s.j s.LevelTypes.length) s
  | some r =>
    if r.Files.getD fileIdx "" = "0" then
      .ok { s with LevelTypes := s.LevelTypes.set s.j.toNat
                                   { r with Files := r.Files.set fileIdx "" } }
    else
      .ok s

/-- The inner loop `for fileIdx := range LevelTypes[i].Files { ... }`: `n` iterations
remain and the next one has index `fileIdx` (the range is over an array of constant
length 32, so the range expression itself is not evaluated). -/
def filesLoop (parts : List String) : Nat → Nat → LoopState → Result LoopState
  | 0, _, s => .ok s
  | n + 1, fileIdx, s =>
    (assign parts (fun v r => { r with Files := r.Files.set fileIdx v }) s).bind fun s =>
    (zeroToEmpty fileIdx s).bind fun s =>
    filesLoop parts n (fileIdx + 1) s

/-- The statements of the loop body that decode one row (lines 43 to 55). -/
def decodeRow (StringToInt : String → Int) (parts : List String)
    (s : LoopState) : Result LoopState :=
  (assign parts (fun v r => { r with Name := v }) s).bind fun s =>
  (assign parts (fun v r => { r with ID := StringToInt v }) s).bind fun s =>
  (filesLoop parts 32 0 s).bind fun s =>
  (assign parts (fun v r => { r with Beta := v != "1" }) s).bind fun s =>
  (assign parts (fun v r => { r with Act := StringToInt v }) s).bind fun s =>
  assign parts (fun v r => { r with Expansion := v != "1" }) s

/-- The body of the `for` loop, up to (not including) the post statement
`i, j = i+1, j+1`; both `continue` statements and the end of the body fall
through to it. `StringToInt` is `d2common.StringToInt`. -/
def loopBody (StringToInt : String → Int) (data : List String)
    (s : LoopState) : Result LoopState :=
  let s := { s with idx := -1 }
  match data[s.i]? with
  | none => .panic (.indexOutOfRange .data s.i data.length) s
  | some row =>
    if row = "" then
      .ok s
    else
      let parts := strings.Split row "\t"
      match parts[0]? with
      | none => .panic (.indexOutOfRange .parts 0 parts.length) s
      | some first =>
        if first = "Expansion" then
          .ok { s with j := s.j - 1 }
        else
          decodeRow StringToInt parts s

/-- The post statement `i, j = i+1, j+1`. -/
def loopPost (s : LoopState) : LoopState :=
  { s with i := s.i + 1, j := s.j + 1 }

/-- The loop `for i, j := 0, 0; i < len(data); i, j = i+1, j+1 { ... }` run from the state `s`
with a budget of `fuel` iterations. -/
def loop (StringToInt : String → Int) (data : List String) :
    Nat → LoopState → Result LoopState
  | fuel, s =>
    if s.i < data.length then
      match fuel with
      | 0 => .timeout
      | fuel + 1 =>
        match loopBody StringToInt data s with
        | .ok s => loop StringToInt data fuel (loopPost s)
        | r => r
    else
      .ok s

/-- The rows handed to the loop: `strings.Split(string(file), "\r\n")[1:]`. -/
def dataRows (file : String) : List String :=
  (strings.Split file "\r\n").drop 1

/-- The function `LoadLevelTypes(file)`, run on the package state `st`. -/
def LoadLevelTypes (StringToInt : String → Int) (file : String) (st : State) :
    Result State :=
  let data := dataRows file
  let LevelTypes := List.replicate data.length LevelTypeRecord.zero
  match loop StringToInt data data.length
      { i := 0, j := 0, idx := -1, LevelTypes := LevelTypes } with
  | .ok s =>
    .ok { LevelTypes := s.LevelTypes,
          log := st.log ++
            ["Loaded " ++ toString s.LevelTypes.length ++ " LevelType records"] }
  | .panic p s => .panic p { LevelTypes := s.LevelTypes, log := st.log }
  | .timeout => .timeout

/-! ### Vocabulary of the specification of the loader -/

/-- The tab-separated fields of a row, `strings.Split(row, "\t")`. -/
def fields (row : String) : List String :=
  strings.Split row "\t"

/-- The sentinel row: a non-blank line whose first field is `"Expansion"`. -/
def isExpansionRow (row : String) : Bool :=
  row != "" && (fields row)[0]? == some "Expansion"

/-- A row the loop decodes: neither blank nor the sentinel row. -/
def isDecodedRow (row : String) : Bool :=
  row != "" && (fields row)[0]? != some "Expansion"

/-- Number of sentinel rows in a list of rows. -/
def countExpansion (rows : List String) : Nat :=
  rows.countP isExpansionRow

/-- A file slot as stored: the literal `"0"` denotes "absent" and is stored as `""`. -/
def emptyIfZero (v : String) : String :=
  if v = "0" then "" else v

/-- The record the specification assigns to a row with fields `f0 .. f36`
(written from the words of the specification, not from the loop). -/
def decodeFields (StringToInt : String → Int) (f : List String) : LevelTypeRecord :=
  { Name := f.getD 0 "",
    ID := StringToInt (f.getD 1 ""),
    Files := (List.range 32).map fun k => emptyIfZero (f.getD (2 + k) ""),
    Beta := f.getD 34 "" != "1",
    Act := StringToInt (f.getD 35 ""),
    Expansion := f.getD 36 "" != "1" }

/-- The files written by `n` iterations of the inner loop starting at `fileIdx = k`. -/
def fillFiles (parts : List String) : Nat → Nat → List String → List String
  | 0, _, fs => fs
  | n + 1, k, fs => fillFiles parts n (k + 1) (fs.set k (emptyIfZero (parts.getD (k + 2) "")))

/-- The state in which the loop is entered: `i, j := 0, 0` and the table made by
`make([]LevelTypeRecord, len(data))`. -/
def initial (data : List String) : LoopState :=
  { i := 0, j := 0, idx := -1,
    LevelTypes := List.replicate data.length LevelTypeRecord.zero }

/-- The state at the head of iteration `k` of the loop (before the test `i < len(data)`),
when the first `k` iterations ran without a panic. -/
def headState (StringToInt : String → Int) (data : List String) : Nat → Option LoopState
  | 0 => some (initial data)
  | k + 1 =>
    match headState StringToInt data k with
    | none => none
    | some s =>
      if s.i < data.length then
        match loopBody StringToInt data s with
        | .ok s => some (loopPost s)
        | _ => none
      else
        none

/-- Rows that can be decoded without running off the end of `parts`: every row that is
neither blank nor the sentinel has at least 37 fields. -/
def wellFormedRows (rows : List String) : Bool :=
  rows.all fun row => !isDecodedRow row || decide (37 ≤ (fields row).length)

/-- The slot a data line other than the sentinel occupies: the zero record for a blank
line, the decoded record otherwise. -/
def slotOf (StringToInt : String → Int) (row : String) : LevelTypeRecord :=
  if row = "" then LevelTypeRecord.zero else decodeFields StringToInt (fields row)

/-- The table the loader leaves for well-formed rows: one slot per line that is not the
sentinel, in input order, then one zero record per sentinel row. -/
def expectedTable (StringToInt : String → Int) (rows : List String) : List LevelTypeRecord :=
  (rows.filter fun row => !isExpansionRow row).map (slotOf StringToInt) ++
    List.replicate (countExpansion rows) LevelTypeRecord.zero

/-- The row of the scenario in the specification: `Foo`, `5`, thirty-two file slots
`"0"`, then beta, act and expansion all `"1"`. -/
def fooRow : String :=
  "Foo\t5\t0\t0\t0\t0\t0\t0\t0\t0\t0\t0\t0\t0\t0\t0\t0\t0\t0\t0\t0\t0\t0\t0\t0\t0\t0\t0\t0\t0\t0\t0\t0\t0\t1\t1\t1"

/-- The record the specification gives for `fooRow`. -/
def fooRecord : LevelTypeRecord :=
  { Name := "Foo", ID := 5, Files := List.replicate 32 "", Beta := false, Act := 1,
    Expansion := false }

/-- The slots, in input order, of the lines that are not the sentinel. -/
def slotsOf (StringToInt : String → Int) (rows : List String) : List LevelTypeRecord :=
  (rows.filter fun row => !isExpansionRow row).map (slotOf StringToInt)

/-- Invariant of the loop at the head of iteration `k`. -/
structure HeadInv (data : List String) (k : Nat) (s : LoopState) : Prop where
  i_eq : s.i = k
  j_eq : s.j = (k : Int) - (countExpansion (data.take k) : Int)
  length_eq : s.LevelTypes.length = data.length
  le_length : k ≤ data.length

/-- The slot `LevelTypes[j]` exists. -/
def InRange (s : LoopState) : Prop :=
  0 ≤ s.j ∧ s.j.toNat < s.LevelTypes.length

/-- The state `s` differs from `s0` at most in `idx` and in the slot `LevelTypes[j]`. -/
structure SameButSlot (s0 s : LoopState) : Prop where
  i_eq : s.i = s0.i
  j_eq : s.j = s0.j
  length_eq : s.LevelTypes.length = s0.LevelTypes.length
  frame : ∀ m : Nat, (m : Int) ≠ s0.j → s.LevelTypes[m]? = s0.LevelTypes[m]?

/-- A run that started in `s0` ended (by completion or by a bounds failure on `parts`)
in a state that differs from `s0` at most in `idx` and in the slot `LevelTypes[j]`. -/
def Confined (s0 : LoopState) : Result LoopState → Prop
  | .ok s => SameButSlot s0 s
  | .panic p s => SameButSlot s0 s ∧ ∃ k n, p = .indexOutOfRange .parts k n
  | .timeout => False

end d2datadict

/-! ## `d2asset`: the asset facade -/

namespace d2asset

/-- Address of an object on the Go heap. -/
abbrev Addr := Nat

/-- A reference to a console (an object implementing `d2interface.Terminal`). A value of
the interface type itself is an `Option TermRef`, where `none` is the nil interface. -/
abbrev TermRef := Nat

/-- A Go `error`: `none` is `nil`, `some msg` is an error whose `Error()` is `msg`. -/
abbrev GoError := Option String

/-- A pointer returned by a loader (`*d2mpq.MPQ`, `*Animation`, ...): `none` is `nil`. -/
abbrev Ptr := Option Addr

/-- Modelled from the spec: the weighted cache every manager owns (`d2common.Cache` is not
among the sources). It maps request keys to entries with a weight, has a budget fixed at
construction and a verbosity flag "affecting only logging, never behavior". -/
structure Cache where
  entries : List (String × Nat)
  budget : Nat
  verbose : Bool
deriving DecidableEq, Repr

/-- Modelled from the spec: construction of a cache with its budget (the constructor is
not among the sources): no entry, not verbose. -/
def Cache.create (budget : Nat) : Cache :=
  { entries := [], budget := budget, verbose := false }

/-- Modelled from the spec: `SetVerbose(bool)` "toggles whether insert/evict/hit/miss
events are logged; purely observational" (the method is not among the sources). -/
def Cache.SetVerbose (c : Cache) (verbose : Bool) : Cache :=
  { c with verbose := verbose }

/-- Modelled from the spec: `Clear()` "removes all entries, resets weight to zero; no
effect on budget" (the method is not among the sources). -/
def Cache.Clear (c : Cache) : Cache :=
  { c with entries := [] }

/-- Modelled from the spec: `GetWeight()` is the "total weight of all entries" (the method
is not among the sources). -/
def Cache.GetWeight (c : Cache) : Nat :=
  (c.entries.map Prod.snd).sum

/-- Modelled from the spec: `GetBudget()` is the "configured budget" (the method is not
among the sources). -/
def Cache.GetBudget (c : Cache) : Nat :=
  c.budget

/-- The six manager types of the package. -/
inductive ManagerKind where
  | archive
  | file
  | palette
  | paletteTransform
  | animation
  | font
deriving DecidableEq, Repr

/-- A manager object on the heap: its type, the cache it owns (field `cache`) and the
managers it was constructed with. -/
structure Manager where
  kind : ManagerKind
  cache : Cache
  uses : List Addr
deriving DecidableEq, Repr

/-- The Go struct `assetManager`: pointers to the six managers. -/
structure assetManager where
  archiveManager : Addr
  fileManager : Addr
  paletteManager : Addr
  paletteTransformManager : Addr
  animationManager : Addr
  fontManager : Addr
deriving DecidableEq, Repr

/-- The three closures `Initialize` passes to `term.BindAction`, each with the variables it
captures (the `assetspam` closure does not mention `fontManager`). -/
inductive Action where
  | assetspam (term : TermRef)
      (archiveManager fileManager paletteManager paletteTransformManager
        animationManager : Addr)
  | assetstat (term : TermRef)
      (archiveManager fileManager paletteManager paletteTransformManager
        animationManager fontManager : Addr)
  | assetclear
      (archiveManager fileManager paletteManager paletteTransformManager
        animationManager fontManager : Addr)
deriving DecidableEq, Repr

/-- A call `BindAction(name, description, action)` received by a console. -/
structure Binding where
  name : String
  description : String
  action : Action
deriving DecidableEq, Repr

/-- An argument of `OutputInfo`: `float64(weight)/float64(budget)*100.0`, kept symbolic. -/
inductive Param where
  | percent (weight budget : Nat)
deriving DecidableEq, Repr

/-- A call `OutputInfo(format, params...)` received by a console. -/
structure OutputLine where
  format : String
  params : List Param
deriving DecidableEq, Repr

/-- Modelled from the spec: the diagnostic console behind `d2interface.Terminal` (the
interface and its implementation are not among the sources): "the facade registers named
actions; the console is responsible for invoking these by name". The model records the
actions bound and the lines output, in order. -/
structure Terminal where
  bindings : List Binding
  output : List OutputLine
deriving DecidableEq, Repr

/-- The state the package runs in: the variable `singleton` (`none` is `nil`), the manager
objects on the heap (address = position), the consoles, and the lines written with
`log.Printf`. -/
structure World where
  singleton : Option assetManager
  heap : List Manager
  terminals : TermRef → Terminal
  log : List String

/-- Result of a call of a facade function: it returns a value, or panics; in both cases
with the state reached. -/
inductive Outcome (α : Type) where
  | returned (value : α) (w : World)
  | panicked (p : Panic) (w : World)

/-- Sequencing: a panic aborts what follows. -/
def Outcome.bind {α β : Type} (o : Outcome α) (k : α → World → Outcome β) : Outcome β :=
  match o with
  | .returned a w => k a w
  | .panicked p w => .panicked p w

/-- Modelled from the spec: the configuration `d2config.Get()` returns (not among the
sources): it "supplies archive search order and override-directory path". -/
structure Configuration where
  archiveSearchOrder : List String
  overrideDirectory : String
deriving DecidableEq, Repr

/-- The collaborators of the facade that are not among the sources, as parameters: the
configuration, the budget each manager gives its cache, the methods of the managers (each
receives the manager and the state, and returns its results and the state it leaves) and
`CreateComposite`. -/
structure Env where
  config : Configuration
  budget : ManagerKind → Nat
  loadArchive : Addr → String → World → (Ptr × GoError) × World
  loadFileStream : Addr → String → World → (Ptr × GoError) × World
  loadFile : Addr → String → World → (List Nat × GoError) × World
  fileExists : Addr → String → World → (Bool × GoError) × World
  loadPaletteTransform : Addr → String → World → (Ptr × GoError) × World
  loadAnimation : Addr → String → String → Int → World → (Ptr × GoError) × World
  loadFont : Addr → String → String → String → World → (Ptr × GoError) × World
  loadPalette : Addr → String → World → (Ptr × GoError) × World
  CreateComposite : Ptr → String → World → Ptr × World

/-- Allocation of a manager object: its address is the next free position of the heap. -/
def new (m : Manager) (w : World) : Addr × World :=
  (w.heap.length, { w with heap := w.heap ++ [m] })

/-- Modelled from the spec: `createArchiveManager(config)` (not among the sources)
constructs a manager owning a fresh cache. -/
def createArchiveManager (env : Env) (_config : Configuration) (w : World) : Addr × World :=
  new { kind := .archive, cache := Cache.create (env.budget .archive), uses := [] } w

/-- Modelled from the spec: `createFileManager(config, archiveManager)` (not among the
sources) constructs a manager owning a fresh cache; it "depends on ArchiveManager". -/
def createFileManager (env : Env) (_config : Configuration) (archiveManager : Addr)
    (w : World) : Addr × World :=
  new { kind := .file, cache := Cache.create (env.budget .file), uses := [archiveManager] } w

/-- Modelled from the spec: `createPaletteManager()` (not among the sources). -/
def createPaletteManager (env : Env) (w : World) : Addr × World :=
  new { kind := .palette, cache := Cache.create (env.budget .palette), uses := [] } w

/-- Modelled from the spec: `createPaletteTransformManager()` (not among the sources). -/
def createPaletteTransformManager (env : Env) (w : World) : Addr × World :=
  new { kind := .paletteTransform, cache := Cache.create (env.budget .paletteTransform),
        uses := [] } w

/-- Modelled from the spec: `createAnimationManager()` (not among the sources). -/
def createAnimationManager (env : Env) (w : World) : Addr × World :=
  new { kind := .animation, cache := Cache.create (env.budget .animation), uses := [] } w

/-- Modelled from the spec: `createFontManager()` (not among the sources). -/
def createFontManager (env : Env) (w : World) : Addr × World :=
  new { kind := .font, cache := Cache.create (env.budget .font), uses := [] } w

/-- The call `term.BindAction(name, description, action)`; the `error` it returns is dropped
by `Initialize`. -/
def BindAction (term : TermRef) (name description : String) (action : Action)
    (w : World) : World :=
  { w with
    terminals := Function.update w.terminals term
      ⟨(w.terminals term).bindings ++ [⟨name, description, action⟩],
        (w.terminals term).output⟩ }

/-- The call `term.OutputInfo(format, params...)`. -/
def OutputInfo (term : TermRef) (format : String) (params : List Param) (w : World) : World :=
  { w with
    terminals := Function.update w.terminals term
      ⟨(w.terminals term).bindings,
        (w.terminals term).output ++ [⟨format, params⟩]⟩ }

/-- A method call `manager.cache.M(...)` that updates the cache of the manager at an
address (addresses made by `new` stay valid: the heap only grows). -/
def onCache (manager : Addr) (f : Cache → Cache) (w : World) : World :=
  match w.heap[manager]? with
  | some m => { w with heap := w.heap.set manager { m with cache := f m.cache } }
  | none => w

/-- The expression `float64(m.cache.GetWeight())/float64(m.cache.GetBudget())*100.0`. -/
def fillPercent (manager : Addr) (w : World) : Param :=
  match w.heap[manager]? with
  | some m => .percent m.cache.GetWeight m.cache.GetBudget
  | none => .percent 0 0

/-- Body of the closure bound to `"assetspam"` (lines 39 to 51). -/
def assetspam (term : TermRef)
    (archiveManager fileManager paletteManager paletteTransformManager
      animationManager : Addr) (verbose : Bool) (w : World) : World :=
  let w :=
    if verbose then OutputInfo term "asset manager verbose logging enabled" [] w
    else OutputInfo term "asset manager verbose logging disabled" [] w
  let w := onCache archiveManager (fun c => c.SetVerbose verbose) w
  let w := onCache fileManager (fun c => c.SetVerbose verbose) w
  let w := onCache paletteManager (fun c => c.SetVerbose verbose) w
  let w := onCache paletteTransformManager (fun c => c.SetVerbose verbose) w
  onCache animationManager (fun c => c.SetVerbose verbose) w

/-- Body of the closure bound to `"assetstat"` (lines 53 to 60). -/
def assetstat (term : TermRef)
    (archiveManager fileManager paletteManager paletteTransformManager
      animationManager fontManager : Addr) (w : World) : World :=
  let w := OutputInfo term "archive cache: %f" [fillPercent archiveManager w] w
  let w := OutputInfo term "file cache: %f" [fillPercent fileManager w] w
  let w := OutputInfo term "palette cache: %f" [fillPercent paletteManager w] w
  let w := OutputInfo term "palette transform cache: %f"
    [fillPercent paletteTransformManager w] w
  let w := OutputInfo term "animation cache: %f" [fillPercent animationManager w] w
  OutputInfo term "font cache: %f" [fillPercent fontManager w] w

/-- Body of the closure bound to `"assetclear"` (lines 62 to 69). -/
def assetclear
    (archiveManager fileManager paletteManager paletteTransformManager
      animationManager fontManager : Addr) (w : World) : World :=
  let w := onCache archiveManager Cache.Clear w
  let w := onCache fileManager Cache.Clear w
  let w := onCache paletteManager Cache.Clear w
  let w := onCache paletteTransformManager Cache.Clear w
  let w := onCache animationManager Cache.Clear w
  onCache fontManager Cache.Clear w

/-- The console invoking a bound action; `verbose` is the argument handed to a
`func(verbose bool)` and is not used by a `func()`. -/
def Action.invoke : Action → Bool → World → World
  | .assetspam term a f p pt an, verbose, w => d2asset.assetspam term a f p pt an verbose w
  | .assetstat term a f p pt an fo, _, w => d2asset.assetstat term a f p pt an fo w
  | .assetclear a f p pt an fo, _, w => d2asset.assetclear a f p pt an fo w

/-- The function `verifyWasInit()`. -/
def verifyWasInit (w : World) : Outcome Unit :=
  match w.singleton with
  | none => .panicked .ErrNotInit w
  | some _ => .returned () w

/-- The function `verifyNotInit()`. -/
def verifyNotInit (w : World) : Outcome Unit :=
  match w.singleton with
  | some _ => .panicked .ErrWasInit w
  | none => .returned () w

/-- Reading a field through the pointer `singleton`. -/
def derefSingleton (w : World) : Outcome assetManager :=
  match w.singleton with
  | some s => .returned s w
  | none => .panicked .nilDereference w

/-- The receiver of a method call on the interface value `term`: calling a method of the
nil interface is the runtime error `nil pointer dereference`. -/
def derefTerminal (term : Option TermRef) (w : World) : Outcome TermRef :=
  match term with
  | some t => .returned t w
  | none => .panicked .nilDereference w

/-- The function `Initialize(term)`; `term` is `none` for the nil interface. The first
call `term.BindAction` (line 39) needs the receiver, after `singleton` has been stored;
the closures capture the receiver it found. -/
def Initialize (env : Env) (term : Option TermRef) (w : World) : Outcome GoError :=
  (verifyNotInit w).bind fun _ w =>
  let config := env.config
  let (archiveManager, w) := createArchiveManager env config w
  let (fileManager, w) := createFileManager env config archiveManager w
  let (paletteManager, w) := createPaletteManager env w
  let (paletteTransformManager, w) := createPaletteTransformManager env w
  let (animationManager, w) := createAnimationManager env w
  let (fontManager, w) := createFontManager env w
  let singleton : assetManager :=
    { archiveManager := archiveManager, fileManager := fileManager,
      paletteManager := paletteManager,
      paletteTransformManager := paletteTransformManager,
      animationManager := animationManager, fontManager := fontManager }
  let w := { w with singleton := some singleton }
  (derefTerminal term w).bind fun term w =>
  let w := BindAction term "assetspam" "display verbose asset manager logs"
    (.assetspam term archiveManager fileManager paletteManager paletteTransformManager
      animationManager) w
  let w := BindAction term "assetstat" "display asset manager cache statistics"
    (.assetstat term archiveManager fileManager paletteManager paletteTransformManager
      animationManager fontManager) w
  let w := BindAction term "assetclear" "clear asset manager cache"
    (.assetclear archiveManager fileManager paletteManager paletteTransformManager
      animationManager fontManager) w
  .returned none w

/-- The function `Shutdown()`. -/
def Shutdown (w : World) : World :=
  { w with singleton := none }

/-- The function `LoadArchive(archivePath)`. -/
def LoadArchive (env : Env) (archivePath : String) (w : World) : Outcome (Ptr × GoError) :=
  (verifyWasInit w).bind fun _ w =>
  (derefSingleton w).bind fun singleton w =>
  let (r, w) := env.loadArchive singleton.archiveManager archivePath w
  .returned r w

/-- The two calls `log.Printf("error loading file stream %s (%v)", filePath, err.Error())`
and `log.Printf("error loading file %s (%v)", filePath, err.Error())`, with `what` the
words before the path. -/
def logLoadError (what filePath message : String) (w : World) : World :=
  { w with log := w.log ++ [what ++ filePath ++ " (" ++ message ++ ")"] }

/-- The function `LoadFileStream(filePath)`. -/
def LoadFileStream (env : Env) (filePath : String) (w : World) : Outcome (Ptr × GoError) :=
  (verifyWasInit w).bind fun _ w =>
  (derefSingleton w).bind fun singleton w =>
  let ((data, err), w) := env.loadFileStream singleton.fileManager filePath w
  let w :=
    match err with
    | some message => logLoadError "error loading file stream " filePath message w
    | none => w
  .returned (data, err) w

/-- The function `LoadFile(filePath)`. -/
def LoadFile (env : Env) (filePath : String) (w : World) : Outcome (List Nat × GoError) :=
  (verifyWasInit w).bind fun _ w =>
  (derefSingleton w).bind fun singleton w =>
  let ((data, err), w) := env.loadFile singleton.fileManager filePath w
  let w :=
    match err with
    | some message => logLoadError "error loading file " filePath message w
    | none => w
  .returned (data, err) w

/-- The function `FileExists(filePath)`. -/
def FileExists (env : Env) (filePath : String) (w : World) : Outcome (Bool × GoError) :=
  (verifyWasInit w).bind fun _ w =>
  (derefSingleton w).bind fun singleton w =>
  let (r, w) := env.fileExists singleton.fileManager filePath w
  .returned r w

/-- The function `LoadPaletteTransform(pl2Path)`. -/
def LoadPaletteTransform (env : Env) (pl2Path : String) (w : World) :
    Outcome (Ptr × GoError) :=
  (verifyWasInit w).bind fun _ w =>
  (derefSingleton w).bind fun singleton w =>
  let (r, w) := env.loadPaletteTransform singleton.paletteTransformManager pl2Path w
  .returned r w

/-- The function `LoadAnimationWithTransparency(animationPath, palettePath, transparency)`. -/
def LoadAnimationWithTransparency (env : Env) (animationPath palettePath : String)
    (transparency : Int) (w : World) : Outcome (Ptr × GoError) :=
  (verifyWasInit w).bind fun _ w =>
  (derefSingleton w).bind fun singleton w =>
  let (r, w) :=
    env.loadAnimation singleton.animationManager animationPath palettePath transparency w
  .returned r w

/-- The function `LoadAnimation(animationPath, palettePath)`. -/
def LoadAnimation (env : Env) (animationPath palettePath : String) (w : World) :
    Outcome (Ptr × GoError) :=
  (verifyWasInit w).bind fun _ w =>
  LoadAnimationWithTransparency env animationPath palettePath 255 w

/-- The function `LoadComposite(object, palettePath)`. -/
def LoadComposite (env : Env) (object : Ptr) (palettePath : String) (w : World) :
    Outcome (Ptr × GoError) :=
  (verifyWasInit w).bind fun _ w =>
  let (composite, w) := env.CreateComposite object palettePath w
  .returned (composite, none) w

/-- The function `LoadFont(tablePath, spritePath, palettePath)`. -/
def LoadFont (env : Env) (tablePath spritePath palettePath : String) (w : World) :
    Outcome (Ptr × GoError) :=
  (verifyWasInit w).bind fun _ w =>
  (derefSingleton w).bind fun singleton w =>
  let (r, w) := env.loadFont singleton.fontManager tablePath spritePath palettePath w
  .returned r w

/-- The function `LoadPalette(palettePath)`. -/
def LoadPalette (env : Env) (palettePath : String) (w : World) : Outcome (Ptr × GoError) :=
  (verifyWasInit w).bind fun _ w =>
  (derefSingleton w).bind fun singleton w =>
  let (r, w) := env.loadPalette singleton.paletteManager palettePath w
  .returned r w

/-! ### Vocabulary of the specification of the facade -/

/-- The six managers `Initialize` constructs, in the order of construction. -/
def freshManagers (env : Env) (archiveManager : Addr) : List Manager :=
  [ { kind := .archive, cache := Cache.create (env.budget .archive), uses := [] },
    { kind := .file, cache := Cache.create (env.budget .file), uses := [archiveManager] },
    { kind := .palette, cache := Cache.create (env.budget .palette), uses := [] },
    { kind := .paletteTransform, cache := Cache.create (env.budget .paletteTransform),
      uses := [] },
    { kind := .animation, cache := Cache.create (env.budget .animation), uses := [] },
    { kind := .font, cache := Cache.create (env.budget .font), uses := [] } ]

/-- The struct `Initialize` stores in `singleton` when the heap holds `n` objects. -/
def freshSingleton (n : Nat) : assetManager :=
  { archiveManager := n, fileManager := n + 1, paletteManager := n + 2,
    paletteTransformManager := n + 3, animationManager := n + 4, fontManager := n + 5 }

/-- The three calls of `BindAction` made by `Initialize(term)` for the managers `s`. -/
def boundActions (term : TermRef) (s : assetManager) : List Binding :=
  [ ⟨"assetspam", "display verbose asset manager logs",
      .assetspam term s.archiveManager s.fileManager s.paletteManager
        s.paletteTransformManager s.animationManager⟩,
    ⟨"assetstat", "display asset manager cache statistics",
      .assetstat term s.archiveManager s.fileManager s.paletteManager
        s.paletteTransformManager s.animationManager s.fontManager⟩,
    ⟨"assetclear", "clear asset manager cache",
      .assetclear s.archiveManager s.fileManager s.paletteManager
        s.paletteTransformManager s.animationManager s.fontManager⟩ ]

/-- The addresses of the six managers of an `assetManager`. -/
def assetManager.all (s : assetManager) : List Addr :=
  [s.archiveManager, s.fileManager, s.paletteManager, s.paletteTransformManager,
    s.animationManager, s.fontManager]

/-- A state with nothing in it: facade uninitialized, empty heap, no console activity. -/
def World.empty : World :=
  { singleton := none, heap := [], terminals := fun _ => ⟨[], []⟩, log := [] }

/-- Collaborators whose loaders all fail with the error `"not found"` and leave the state
as it is; every cache gets the budget 100. -/
def Env.failing : Env :=
  { config := ⟨[], ""⟩,
    budget := fun _ => 100,
    loadArchive := fun _ _ w => ((none, some "not found"), w),
    loadFileStream := fun _ _ w => ((none, some "not found"), w),
    loadFile := fun _ _ w => (([], some "not found"), w),
    fileExists := fun _ _ w => ((false, some "not found"), w),
    loadPaletteTransform := fun _ _ w => ((none, some "not found"), w),
    loadAnimation := fun _ _ _ _ w => ((none, some "not found"), w),
    loadFont := fun _ _ _ _ w => ((none, some "not found"), w),
    loadPalette := fun _ _ w => ((none, some "not found"), w),
    CreateComposite := fun _ _ w => (none, w) }

/-- The state in which `Initialize` reaches its first `term.BindAction` when called with
`singleton == nil`: the six managers appended to the heap and `singleton` pointing to
them. -/
def afterConstruction (env : Env) (w : World) : World :=
  { singleton := some (freshSingleton w.heap.length),
    heap := w.heap ++ freshManagers env w.heap.length,
    terminals := w.terminals,
    log := w.log }

/-- The panic a call ended with, if it panicked. -/
def Outcome.panic? {α : Type} : Outcome α → Option Panic
  | .returned _ _ => none
  | .panicked p _ => some p

/-- The state `Initialize(term)` leaves when called with `singleton == nil` and a non-nil
terminal: the six managers appended to the heap, `singleton` pointing to them, the three
actions bound on `term`. -/
def afterInitialize (env : Env) (term : TermRef) (w : World) : World :=
  { singleton := some (freshSingleton w.heap.length),
    heap := w.heap ++ freshManagers env w.heap.length,
    terminals := Function.update w.terminals term
      ⟨(w.terminals term).bindings ++ boundActions term (freshSingleton w.heap.length),
        (w.terminals term).output⟩,
    log := w.log }

/-- The state of a call, whether it returned or panicked. -/
def Outcome.world {α : Type} : Outcome α → World
  | .returned _ w => w
  | .panicked _ w => w

/-- The state reached from `World.empty` by the call `Initialize(term)` with console 0. -/
def World.started : World :=
  (Initialize Env.failing (some 0) World.empty).world

end d2asset

/-! # Theorems -/

namespace strings

theorem splitAux_ne_nil (sep : List Char) (s : List Char) (skip : Nat) (cur : List Char) :
    splitAux sep s skip cur ≠ [] := by
  induction s generalizing skip cur with
  | nil => simp [splitAux]
  | cons c rest ih =>
    cases skip with
    | zero =>
      simp only [splitAux]
      split
      · simp
      · exact ih _ _
    | succ k => simpa [splitAux] using ih k cur

/-- Go's `strings.Split` never returns an empty slice (for a non-empty separator). -/
theorem Split_ne_nil (s sep : String) : Split s sep ≠ [] := by
  simp [Split, splitAux_ne_nil]

theorem Split_length_pos (s sep : String) : 0 < (Split s sep).length :=
  List.length_pos.mpr (Split_ne_nil s sep)

end strings

namespace d2datadict

theorem index?_eq_some {α : Type} {xs : List α} {k : Int} {v : α} :
    index? xs k = some v ↔ 0 ≤ k ∧ xs[k.toNat]? = some v := by
  unfold index?
  split <;> simp [*]

theorem index?_natCast {α : Type} (xs : List α) (n : Nat) :
    index? xs (n : Int) = xs[n]? := by
  simp [index?]

theorem index?_isSome {α : Type} {xs : List α} {k : Int} (h0 : 0 ≤ k)
    (h1 : k.toNat < xs.length) : ∃ v, index? xs k = some v :=
  ⟨xs[k.toNat], by simp [index?, h0, List.getElem?_eq_getElem h1]⟩

theorem index?_set_self {lt : List LevelTypeRecord} {j : Int} {r : LevelTypeRecord}
    (h : index? lt j = some r) (x : LevelTypeRecord) :
    index? (lt.set j.toNat x) j = some x := by
  obtain ⟨h0, h1⟩ := index?_eq_some.mp h
  obtain ⟨hlt, -⟩ := List.getElem?_eq_some.mp h1
  simp [index?, h0, List.getElem?_set, hlt]

theorem set_index?_self {lt : List LevelTypeRecord} {j : Int} {r : LevelTypeRecord}
    (h : index? lt j = some r) : lt.set j.toNat r = lt := by
  obtain ⟨-, h1⟩ := index?_eq_some.mp h
  apply List.ext_getElem?
  intro m
  rw [List.getElem?_set]
  split
  · next hm => subst hm; obtain ⟨hlt, -⟩ := List.getElem?_eq_some.mp h1; simp [hlt, h1]
  · rfl

/-! ### The statements of the loop body -/

theorem assign_ok {parts : List String} {put : String → LevelTypeRecord → LevelTypeRecord}
    {s : LoopState} {r : LevelTypeRecord} (n : Nat) (hidx : s.idx + 1 = (n : Int))
    (hn : n < parts.length) (hr : index? s.LevelTypes s.j = some r) :
    assign parts put s =
      .ok { s with idx := (n : Int),
                   LevelTypes := s.LevelTypes.set s.j.toNat (put (parts.getD n "") r) } := by
  have hp : index? parts (n : Int) = some (parts.getD n "") := by
    rw [index?_natCast]
    simp [List.getD_eq_getElem?_getD, List.getElem?_eq_getElem hn]
  simp [assign, storeAt, hp, hr, hidx]

theorem sameButSlot_refl (s : LoopState) : SameButSlot s s :=
  ⟨rfl, rfl, rfl, fun _ _ => rfl⟩

theorem sameButSlot_trans {a b c : LoopState} (h1 : SameButSlot a b) (h2 : SameButSlot b c) :
    SameButSlot a c :=
  ⟨h2.i_eq.trans h1.i_eq, h2.j_eq.trans h1.j_eq, h2.length_eq.trans h1.length_eq,
    fun m hm => (h2.frame m (by rw [h1.j_eq]; exact hm)).trans (h1.frame m hm)⟩

theorem sameButSlot_inRange {a b : LoopState} (h : SameButSlot a b) (ha : InRange a) :
    InRange b := by
  unfold InRange at *
  rw [h.j_eq, h.length_eq]
  exact ha

theorem sameButSlot_set (s : LoopState) (h0 : 0 ≤ s.j) (idx : Int) (x : LevelTypeRecord) :
    SameButSlot s { s with idx := idx, LevelTypes := s.LevelTypes.set s.j.toNat x } := by
  refine ⟨rfl, rfl, by simp, fun m hm => ?_⟩
  apply List.getElem?_set_ne
  intro h
  apply hm
  rw [← h]
  exact Int.toNat_of_nonneg h0

theorem sameButSlot_idx (s : LoopState) (idx : Int) : SameButSlot s { s with idx := idx } :=
  ⟨rfl, rfl, rfl, fun _ _ => rfl⟩

theorem confined_bind {s0 : LoopState} {r : Result LoopState}
    {k : LoopState → Result LoopState} (hr : Confined s0 r)
    (hk : ∀ s, SameButSlot s0 s → Confined s (k s)) : Confined s0 (r.bind k) := by
  cases r with
  | ok s =>
    have h1 : SameButSlot s0 s := hr
    have h2 := hk s h1
    show Confined s0 (k s)
    cases hks : k s with
    | ok s2 => rw [hks] at h2; exact sameButSlot_trans h1 h2
    | panic p s2 => rw [hks] at h2; exact ⟨sameButSlot_trans h1 h2.1, h2.2⟩
    | timeout => rw [hks] at h2; exact h2
  | panic p s => exact hr
  | timeout => exact hr

theorem assign_confined (parts : List String)
    (put : String → LevelTypeRecord → LevelTypeRecord) {s : LoopState} (hs : InRange s) :
    Confined s (assign parts put s) := by
  obtain ⟨r, hr⟩ := index?_isSome hs.1 hs.2
  unfold assign
  simp only [storeAt, hr]
  split
  · exact ⟨sameButSlot_idx s _, _, _, rfl⟩
  · exact sameButSlot_set s hs.1 _ _

theorem zeroToEmpty_confined (fileIdx : Nat) {s : LoopState} (hs : InRange s) :
    Confined s (zeroToEmpty fileIdx s) := by
  obtain ⟨r, hr⟩ := index?_isSome hs.1 hs.2
  unfold zeroToEmpty
  simp only [hr]
  split
  · exact sameButSlot_set s hs.1 s.idx _
  · exact sameButSlot_refl s

theorem filesLoop_confined (parts : List String) (n fileIdx : Nat) {s : LoopState}
    (hs : InRange s) : Confined s (filesLoop parts n fileIdx s) := by
  induction n generalizing fileIdx s with
  | zero => exact sameButSlot_refl s
  | succ n ih =>
    unfold filesLoop
    refine confined_bind (assign_confined parts _ hs) fun s1 h1 => ?_
    refine confined_bind (zeroToEmpty_confined fileIdx (sameButSlot_inRange h1 hs)) fun s2 h2 => ?_
    exact ih (fileIdx + 1) (sameButSlot_inRange h2 (sameButSlot_inRange h1 hs))

theorem decodeRow_confined (StringToInt : String → Int) (parts : List String)
    {s : LoopState} (hs : InRange s) : Confined s (decodeRow StringToInt parts s) := by
  unfold decodeRow
  refine confined_bind (assign_confined parts _ hs) fun s1 h1 => ?_
  have i1 := sameButSlot_inRange h1 hs
  refine confined_bind (assign_confined parts _ i1) fun s2 h2 => ?_
  have i2 := sameButSlot_inRange h2 i1
  refine confined_bind (filesLoop_confined parts 32 0 i2) fun s3 h3 => ?_
  have i3 := sameButSlot_inRange h3 i2
  refine confined_bind (assign_confined parts _ i3) fun s4 h4 => ?_
  have i4 := sameButSlot_inRange h4 i3
  refine confined_bind (assign_confined parts _ i4) fun s5 h5 => ?_
  exact assign_confined parts _ (sameButSlot_inRange h5 i4)

/-! ### Decoding a row with at least 37 fields -/

theorem assign_set {parts : List String} (put : String → LevelTypeRecord → LevelTypeRecord)
    {lt : List LevelTypeRecord} {j : Int} {r0 : LevelTypeRecord}
    (hr : index? lt j = some r0) (i : Nat) (idx : Int) (r : LevelTypeRecord) (n : Nat)
    (hidx : idx + 1 = (n : Int)) (hn : n < parts.length) :
    assign parts put ⟨i, j, idx, lt.set j.toNat r⟩ =
      .ok ⟨i, j, (n : Int), lt.set j.toNat (put (parts.getD n "") r)⟩ := by
  rw [assign_ok n hidx hn (index?_set_self hr r)]
  simp [List.set_set]

theorem zeroToEmpty_set {lt : List LevelTypeRecord} {j : Int} {r0 : LevelTypeRecord}
    (hr : index? lt j = some r0) (i : Nat) (idx : Int) (r : LevelTypeRecord) (k : Nat)
    (v : String) (hk : k < r.Files.length) :
    zeroToEmpty k ⟨i, j, idx, lt.set j.toNat { r with Files := r.Files.set k v }⟩ =
      .ok ⟨i, j, idx, lt.set j.toNat { r with Files := r.Files.set k (emptyIfZero v) }⟩ := by
  unfold zeroToEmpty
  simp only [index?_set_self hr]
  have hv : (r.Files.set k v).getD k "" = v := by
    simp [List.getD_eq_getElem?_getD, List.getElem?_set, hk]
  rw [hv]
  by_cases h0 : v = "0"
  · simp [h0, emptyIfZero, List.set_set]
  · simp [h0, emptyIfZero]

theorem filesLoop_set {parts : List String} {lt : List LevelTypeRecord} {j : Int}
    {r0 : LevelTypeRecord} (hr : index? lt j = some r0) (i : Nat) (n k : Nat)
    (r : LevelTypeRecord) (hn : k + 1 + n < parts.length) (hk : k + n ≤ r.Files.length) :
    filesLoop parts n k ⟨i, j, ((k + 1 : Nat) : Int), lt.set j.toNat r⟩ =
      .ok ⟨i, j, ((k + 1 + n : Nat) : Int),
            lt.set j.toNat { r with Files := fillFiles parts n k r.Files }⟩ := by
  induction n generalizing k r with
  | zero => simp [filesLoop, fillFiles]
  | succ n ih =>
    unfold filesLoop
    rw [assign_set _ hr i _ r (k + 2) (by push_cast; ring) (by omega)]
    simp only [Result.bind]
    rw [zeroToEmpty_set hr i _ r k _ (by omega)]
    simp only [Result.bind]
    have := ih (k + 1) { r with Files := r.Files.set k (emptyIfZero (parts.getD (k + 2) "")) }
      (by omega) (by simp; omega)
    rw [show k + 1 + 1 = k + 2 from rfl] at this
    rw [this]
    simp only [fillFiles]
    congr 2
    push_cast
    ring

theorem fillFiles_length (parts : List String) (n k : Nat) (fs : List String) :
    (fillFiles parts n k fs).length = fs.length := by
  induction n generalizing k fs with
  | zero => rfl
  | succ n ih => simp [fillFiles, ih]

theorem fillFiles_getElem? (parts : List String) (n k : Nat) (fs : List String) (m : Nat) :
    (fillFiles parts n k fs)[m]? =
      if k ≤ m ∧ m < k + n ∧ m < fs.length then some (emptyIfZero (parts.getD (m + 2) ""))
      else fs[m]? := by
  induction n generalizing k fs with
  | zero =>
    have : ¬ (k ≤ m ∧ m < k + 0 ∧ m < fs.length) := by omega
    rw [if_neg this]
    rfl
  | succ n ih =>
    simp only [fillFiles, ih, List.length_set, List.getElem?_set]
    by_cases hkm : k = m
    · subst hkm
      by_cases hlen : k < fs.length
      · have h1 : ¬ (k + 1 ≤ k ∧ k < k + 1 + n ∧ k < fs.length) := by omega
        have h2 : k ≤ k ∧ k < k + (n + 1) ∧ k < fs.length := ⟨le_refl _, by omega, hlen⟩
        simp [h1, h2, hlen]
      · have h1 : ¬ (k + 1 ≤ k ∧ k < k + 1 + n ∧ k < fs.length) := by omega
        have h2 : ¬ (k ≤ k ∧ k < k + (n + 1) ∧ k < fs.length) := by omega
        simp [h1, h2, hlen]
        omega
    · by_cases hc : k + 1 ≤ m ∧ m < k + 1 + n ∧ m < fs.length
      · have h2 : k ≤ m ∧ m < k + (n + 1) ∧ m < fs.length := by omega
        simp [hc, h2]
      · have h2 : ¬ (k ≤ m ∧ m < k + (n + 1) ∧ m < fs.length) := by omega
        simp [hc, h2, hkm]

theorem fillFiles_full (parts : List String) (fs : List String) (h : fs.length = 32) :
    fillFiles parts 32 0 fs =
      (List.range 32).map fun k => emptyIfZero (parts.getD (2 + k) "") := by
  apply List.ext_getElem?
  intro m
  rw [fillFiles_getElem?, List.getElem?_map]
  by_cases hm : m < 32
  · have h1 : 0 ≤ m ∧ m < 0 + 32 ∧ m < fs.length := by omega
    simp [h1, List.getElem?_range hm, Nat.add_comm]
  · have h1 : ¬ (0 ≤ m ∧ m < 0 + 32 ∧ m < fs.length) := by omega
    have h2 : fs.length ≤ m := by omega
    have h3 : (List.range 32).length ≤ m := by simp; omega
    rw [if_neg h1, List.getElem?_eq_none h2, List.getElem?_eq_none h3]
    rfl

/-- A row with at least 37 fields is decoded, in a slot that exists, to the record of
the specification; nothing else of the state changes but `idx`. -/
theorem decodeRow_ok (StringToInt : String → Int) {parts : List String}
    {lt : List LevelTypeRecord} {j : Int} {r : LevelTypeRecord} (i : Nat)
    (hparts : 37 ≤ parts.length) (hr : index? lt j = some r) (hfiles : r.Files.length = 32) :
    decodeRow StringToInt parts ⟨i, j, -1, lt⟩ =
      .ok ⟨i, j, 36, lt.set j.toNat (decodeFields StringToInt parts)⟩ := by
  unfold decodeRow
  conv_lhs => rw [← set_index?_self hr]
  rw [assign_set _ hr i _ r 0 (by norm_num) (by omega)]
  simp only [Result.bind]
  rw [assign_set _ hr i _ _ 1 (by norm_num) (by omega)]
  simp only [Result.bind]
  have hf := @filesLoop_set parts _ _ _ hr i 32 0
    { r with Name := parts.getD 0 "", ID := StringToInt (parts.getD 1 "") }
    (by omega) (by simp [hfiles])
  simp only [Nat.zero_add] at hf
  rw [hf]
  simp only [Result.bind]
  rw [assign_set _ hr i _ _ 34 (by norm_num) (by omega)]
  simp only [Result.bind]
  rw [assign_set _ hr i _ _ 35 (by norm_num) (by omega)]
  simp only [Result.bind]
  rw [assign_set _ hr i _ _ 36 (by norm_num) (by omega)]
  simp [decodeFields, fillFiles_full parts r.Files hfiles]

/-! ### The loop body, by kind of row -/

theorem fields_head (row : String) : ∃ first, (fields row)[0]? = some first := by
  have h := strings.Split_length_pos row "\t"
  exact ⟨(fields row)[0], List.getElem?_eq_getElem h⟩

theorem row_cases (row : String) :
    row = "" ∨ isExpansionRow row = true ∨ isDecodedRow row = true := by
  by_cases h : row = ""
  · exact Or.inl h
  · obtain ⟨first, hf⟩ := fields_head row
    by_cases h2 : first = "Expansion"
    · right; left; simp [isExpansionRow, h, hf, h2]
    · right; right; simp [isDecodedRow, h, hf, h2]

theorem not_expansion_of_blank : isExpansionRow "" = false := by
  simp [isExpansionRow]

theorem not_expansion_of_decoded {row : String} (h : isDecodedRow row = true) :
    isExpansionRow row = false := by
  obtain ⟨first, hf⟩ := fields_head row
  simp only [isDecodedRow, hf, Bool.and_eq_true, bne_iff_ne, ne_eq, Option.some.injEq] at h
  simp [isExpansionRow, hf, h.2]

theorem loopBody_blank (StringToInt : String → Int) {data : List String} {s : LoopState}
    (h : data[s.i]? = some "") :
    loopBody StringToInt data s = .ok { s with idx := -1 } := by
  simp [loopBody, h]

theorem loopBody_expansion (StringToInt : String → Int) {data : List String}
    {s : LoopState} {row : String} (h : data[s.i]? = some row)
    (hrow : isExpansionRow row = true) :
    loopBody StringToInt data s = .ok { s with idx := -1, j := s.j - 1 } := by
  obtain ⟨first, hf⟩ := fields_head row
  simp only [isExpansionRow, hf, Bool.and_eq_true, bne_iff_ne, ne_eq, beq_iff_eq,
    Option.some.injEq] at hrow
  unfold fields at hf
  simp [loopBody, h, hrow.1, hf, hrow.2]

theorem loopBody_decoded (StringToInt : String → Int) {data : List String}
    {s : LoopState} {row : String} (h : data[s.i]? = some row)
    (hrow : isDecodedRow row = true) :
    loopBody StringToInt data s = decodeRow StringToInt (fields row) { s with idx := -1 } := by
  obtain ⟨first, hf⟩ := fields_head row
  simp only [isDecodedRow, hf, Bool.and_eq_true, bne_iff_ne, ne_eq,
    Option.some.injEq] at hrow
  unfold fields at hf
  simp [loopBody, h, hrow.1, hf, hrow.2, fields]

theorem countExpansion_take_succ {data : List String} {k : Nat} {row : String}
    (h : data[k]? = some row) :
    countExpansion (data.take (k + 1)) =
      countExpansion (data.take k) + if isExpansionRow row = true then 1 else 0 := by
  simp [countExpansion, List.take_succ, h, List.countP_append, List.countP_cons]

theorem countExpansion_take_le (data : List String) (k : Nat) :
    countExpansion (data.take k) ≤ k := by
  unfold countExpansion
  exact (List.countP_le_length _).trans (List.length_take_le k data)

theorem headInv_inRange {data : List String} {k : Nat} {s : LoopState}
    (h : HeadInv data k s) (hk : k < data.length) : InRange s := by
  have := countExpansion_take_le data k
  unfold InRange
  rw [h.j_eq, h.length_eq]
  omega

/-- What one run of the loop body does to a state at the head of an iteration: it
completes or stops on a bounds failure of `parts`; `i` and the length of the table are
kept, `j` is kept or (for the sentinel row) decremented, and no slot other than
`LevelTypes[j]` changes. -/
theorem loopBody_effect (StringToInt : String → Int) {data : List String} {s : LoopState}
    (hi : s.i < data.length) (hs : InRange s) :
    (∃ s1, loopBody StringToInt data s = .ok s1 ∧ s1.i = s.i ∧
        s1.LevelTypes.length = s.LevelTypes.length ∧
        (s1.j = s.j ∨ (s1.j = s.j - 1 ∧ s1.LevelTypes = s.LevelTypes)) ∧
        ∀ m : Nat, (m : Int) ≠ s.j → s1.LevelTypes[m]? = s.LevelTypes[m]?) ∨
    (∃ k n s1, loopBody StringToInt data s = .panic (.indexOutOfRange .parts k n) s1 ∧
        s1.LevelTypes.length = s.LevelTypes.length ∧
        ∀ m : Nat, (m : Int) ≠ s.j → s1.LevelTypes[m]? = s.LevelTypes[m]?) := by
  have hrow : data[s.i]? = some data[s.i] := List.getElem?_eq_getElem hi
  rcases row_cases data[s.i] with hb | he | hd
  · rw [hb] at hrow
    exact Or.inl ⟨_, loopBody_blank StringToInt hrow, rfl, rfl, Or.inl rfl, fun _ _ => rfl⟩
  · exact Or.inl ⟨_, loopBody_expansion StringToInt hrow he, rfl, rfl, Or.inr ⟨rfl, rfl⟩,
      fun _ _ => rfl⟩
  · have hc := decodeRow_confined StringToInt (fields data[s.i])
      (s := { s with idx := -1 }) hs
    rw [loopBody_decoded StringToInt hrow hd]
    cases hres : decodeRow StringToInt (fields data[s.i]) { s with idx := -1 } with
    | ok s1 =>
      rw [hres] at hc
      have hc : SameButSlot { s with idx := -1 } s1 := hc
      exact Or.inl ⟨s1, rfl, hc.i_eq, hc.length_eq, Or.inl hc.j_eq, hc.frame⟩
    | panic p s1 =>
      rw [hres] at hc
      obtain ⟨hsame, k, n, hp⟩ := hc
      exact Or.inr ⟨k, n, s1, by rw [hp], hsame.length_eq, hsame.frame⟩
    | timeout =>
      rw [hres] at hc
      exact hc.elim

/-! ### The states at the head of the iterations -/

theorem headState_succ {StringToInt : String → Int} {data : List String} {k : Nat}
    {s : LoopState} (h : headState StringToInt data (k + 1) = some s) :
    ∃ s0 s1, headState StringToInt data k = some s0 ∧ s0.i < data.length ∧
      loopBody StringToInt data s0 = .ok s1 ∧ s = loopPost s1 := by
  unfold headState at h
  cases hprev : headState StringToInt data k with
  | none => simp [hprev] at h
  | some s0 =>
    simp only [hprev] at h
    by_cases hi : s0.i < data.length
    · simp only [hi, if_true] at h
      cases hb : loopBody StringToInt data s0 with
      | ok s1 =>
        simp only [hb, Option.some.injEq] at h
        exact ⟨s0, s1, rfl, hi, hb, h.symm⟩
      | panic p s1 => simp [hb] at h
      | timeout => simp [hb] at h
    · simp [hi] at h

theorem headState_step {StringToInt : String → Int} {data : List String} {k : Nat}
    {s0 s1 : LoopState} (h0 : headState StringToInt data k = some s0)
    (hi : s0.i < data.length) (hb : loopBody StringToInt data s0 = .ok s1) :
    headState StringToInt data (k + 1) = some (loopPost s1) := by
  simp [headState, h0, hi, hb]

/-- The loop invariant: at the head of iteration `k`, `i = k`, `j` is `k` minus the number
of sentinel rows among the first `k` rows, and the table has one slot per data line. -/
theorem headState_inv {StringToInt : String → Int} {data : List String} {k : Nat}
    {s : LoopState} (h : headState StringToInt data k = some s) : HeadInv data k s := by
  induction k generalizing s with
  | zero =>
    simp only [headState, Option.some.injEq] at h
    subst h
    exact ⟨rfl, by simp [initial, countExpansion], by simp [initial], Nat.zero_le _⟩
  | succ k ih =>
    obtain ⟨s0, s1, h0, hi, hb, rfl⟩ := headState_succ h
    have inv := ih h0
    have hk : k < data.length := by rw [← inv.i_eq]; exact hi
    have hrow : data[s0.i]? = some data[s0.i] := List.getElem?_eq_getElem hi
    have hrowk : data[k]? = some data[s0.i] := by rw [← inv.i_eq]; exact hrow
    have hcount := countExpansion_take_succ hrowk
    rcases row_cases data[s0.i] with hb0 | he | hd
    · rw [hb0] at hrow
      rw [loopBody_blank StringToInt hrow] at hb
      injection hb with hb
      subst hb
      rw [hb0, not_expansion_of_blank] at hcount
      refine ⟨by simp [loopPost, inv.i_eq], ?_, by simp [loopPost, inv.length_eq], hk⟩
      simp only [loopPost, inv.j_eq, hcount]
      simp only [Bool.false_eq_true, if_false, Nat.add_zero, Nat.cast_add, Nat.cast_one]
      ring
    · rw [loopBody_expansion StringToInt hrow he] at hb
      injection hb with hb
      subst hb
      rw [he] at hcount
      refine ⟨by simp [loopPost, inv.i_eq], ?_, by simp [loopPost, inv.length_eq], hk⟩
      simp only [loopPost, inv.j_eq, hcount]
      push_cast
      ring
    · have hin : InRange s0 := headInv_inRange inv hk
      have hc := decodeRow_confined StringToInt (fields data[s0.i])
        (s := { s0 with idx := -1 }) hin
      rw [← loopBody_decoded StringToInt hrow hd, hb] at hc
      have hc : SameButSlot { s0 with idx := -1 } s1 := hc
      rw [not_expansion_of_decoded hd] at hcount
      refine ⟨by simp [loopPost, hc.i_eq, inv.i_eq], ?_,
        by simp [loopPost, hc.length_eq, inv.length_eq], hk⟩
      simp only [loopPost, hc.j_eq, inv.j_eq, hcount]
      simp only [Bool.false_eq_true, if_false, Nat.add_zero, Nat.cast_add, Nat.cast_one]
      ring

/-- The loop passes through the states `headState`: once `k` iterations have run, what
remains of the loop is the loop from the state at the head of iteration `k`. -/
theorem loop_eq_of_headState {StringToInt : String → Int} {data : List String} {k : Nat}
    {s : LoopState} (h : headState StringToInt data k = some s) (fuel : Nat) :
    loop StringToInt data (fuel + k) (initial data) = loop StringToInt data fuel s := by
  induction k generalizing s fuel with
  | zero =>
    simp only [headState, Option.some.injEq] at h
    subst h
    rfl
  | succ k ih =>
    obtain ⟨s0, s1, h0, hi, hb, rfl⟩ := headState_succ h
    rw [show fuel + (k + 1) = (fuel + 1) + k by omega, ih h0 (fuel + 1)]
    conv_lhs => unfold loop
    simp [hi, hb]

/-- From the head of iteration `k` the loop ends, within `len(data) - k` further
iterations, by completion or by a bounds failure on `parts`; the table keeps its length
and every slot below `j` is left as it is. -/
theorem loop_final {StringToInt : String → Int} {data : List String} (fuel : Nat)
    {k : Nat} {s : LoopState} (h : headState StringToInt data k = some s)
    (hfuel : data.length - k ≤ fuel) :
    ∃ sf, (loop StringToInt data fuel s = .ok sf ∨
        ∃ n m, loop StringToInt data fuel s = .panic (.indexOutOfRange .parts n m) sf) ∧
      sf.LevelTypes.length = data.length ∧
      ∀ m : Nat, (m : Int) < s.j → sf.LevelTypes[m]? = s.LevelTypes[m]? := by
  induction fuel generalizing k s with
  | zero =>
    have inv := headState_inv h
    have hk : ¬ s.i < data.length := by rw [inv.i_eq]; omega
    refine ⟨s, Or.inl ?_, inv.length_eq, fun _ _ => rfl⟩
    unfold loop
    simp [hk]
  | succ fuel ih =>
    have inv := headState_inv h
    by_cases hi : s.i < data.length
    · have hk : k < data.length := by rw [← inv.i_eq]; exact hi
      rcases loopBody_effect StringToInt hi (headInv_inRange inv hk) with
        ⟨s1, hb, -, -, hj, hframe⟩ | ⟨n, m, s1, hb, hlen, hframe⟩
      · obtain ⟨sf, hres, hlen, hkeep⟩ := ih (headState_step h hi hb) (by omega)
        refine ⟨sf, ?_, hlen, fun m hm => ?_⟩
        · unfold loop
          simpa [hi, hb] using hres
        · rw [hkeep m (by rcases hj with hj | ⟨hj, -⟩ <;> simp [loopPost, hj] <;> omega)]
          exact hframe m (by omega)
      · refine ⟨s1, Or.inr ⟨n, m, ?_⟩, by rw [hlen, inv.length_eq],
          fun m hm => hframe m (by omega)⟩
        unfold loop
        simp [hi, hb]
    · refine ⟨s, Or.inl ?_, inv.length_eq, fun _ _ => rfl⟩
      unfold loop
      simp [hi]

/-! ### The table built from well-formed rows -/

theorem slotsOf_length_add (StringToInt : String → Int) (rows : List String) :
    (slotsOf StringToInt rows).length + countExpansion rows = rows.length := by
  induction rows with
  | nil => rfl
  | cons row rest ih =>
    by_cases h : isExpansionRow row = true
    · simp only [slotsOf, countExpansion, List.filter_cons, h, Bool.not_true,
        Bool.false_eq_true, if_false, List.countP_cons, if_true, List.length_cons,
        List.length_map] at ih ⊢
      omega
    · have h2 : isExpansionRow row = false := by simpa using h
      simp only [slotsOf, countExpansion, List.filter_cons, h2, Bool.not_false,
        Bool.false_eq_true, if_false, List.countP_cons, if_true, List.length_cons,
        List.length_map, List.map_cons] at ih ⊢
      omega

theorem slotsOf_take_succ (StringToInt : String → Int) {data : List String} {k : Nat}
    {row : String} (h : data[k]? = some row) :
    slotsOf StringToInt (data.take (k + 1)) =
      slotsOf StringToInt (data.take k) ++
        if isExpansionRow row = true then [] else [slotOf StringToInt row] := by
  unfold slotsOf
  rw [List.take_succ, h]
  by_cases he : isExpansionRow row = true
  · simp [List.filter_append, he]
  · simp [List.filter_append, he]

theorem wellFormedRows_take_succ {data : List String} {k : Nat} {row : String}
    (h : data[k]? = some row) (hw : wellFormedRows (data.take (k + 1)) = true) :
    wellFormedRows (data.take k) = true ∧
      (isDecodedRow row = true → 37 ≤ (fields row).length) := by
  unfold wellFormedRows at *
  rw [List.take_succ, h, List.all_append] at hw
  simp only [Bool.and_eq_true] at hw
  refine ⟨hw.1, fun hd => ?_⟩
  have := hw.2
  simp only [Option.toList, List.all_cons, List.all_nil, Bool.and_true, hd, Bool.not_true,
    Bool.false_or, decide_eq_true_eq] at this
  exact this

theorem set_append_replicate {α : Type} (P : List α) (n : Nat) (z x : α) :
    (P ++ List.replicate (n + 1) z).set P.length x = (P ++ [x]) ++ List.replicate n z := by
  simp [List.set_append, List.replicate_succ]

theorem zero_files_length : LevelTypeRecord.zero.Files.length = 32 := by
  simp [LevelTypeRecord.zero]

/-- While the rows read so far are well formed the loop does not panic, and at the head
of iteration `k` the table holds the slots of the first `k` lines followed by zero
records. -/
theorem headState_wellFormed (StringToInt : String → Int) (data : List String) (k : Nat)
    (hk : k ≤ data.length) (hw : wellFormedRows (data.take k) = true) :
    ∃ s, headState StringToInt data k = some s ∧
      s.LevelTypes = slotsOf StringToInt (data.take k) ++
        List.replicate (data.length - (slotsOf StringToInt (data.take k)).length)
          LevelTypeRecord.zero := by
  induction k with
  | zero => exact ⟨initial data, rfl, by simp [initial, slotsOf]⟩
  | succ k ih =>
    have hklt : k < data.length := hk
    have hrowk : data[k]? = some data[k] := List.getElem?_eq_getElem hklt
    obtain ⟨hw0, hfields⟩ := wellFormedRows_take_succ hrowk hw
    obtain ⟨s0, h0, hlt⟩ := ih (by omega) hw0
    have inv := headState_inv h0
    have hi : s0.i < data.length := by rw [inv.i_eq]; exact hklt
    have hrow : data[s0.i]? = some data[k] := by rw [inv.i_eq]; exact hrowk
    have hlen := slotsOf_length_add StringToInt (data.take k)
    have htake : (data.take k).length = k := by simp; omega
    have hj : s0.j = ((slotsOf StringToInt (data.take k)).length : Int) := by
      rw [inv.j_eq]; omega
    obtain ⟨n, hn⟩ : ∃ n, data.length - (slotsOf StringToInt (data.take k)).length = n + 1 :=
      ⟨data.length - (slotsOf StringToInt (data.take k)).length - 1, by omega⟩
    rw [hn] at hlt
    have hsucc := slotsOf_take_succ StringToInt hrowk
    rcases row_cases data[k] with hb | he | hd
    · rw [hb] at hrow
      refine ⟨_, headState_step h0 hi (loopBody_blank StringToInt hrow), ?_⟩
      rw [hsucc, hb, not_expansion_of_blank]
      simp only [loopPost, hlt, Bool.false_eq_true, if_false, List.length_append,
        List.length_singleton]
      rw [show data.length - ((slotsOf StringToInt (data.take k)).length + 1) = n by omega]
      simp [slotOf, List.replicate_succ]
    · refine ⟨_, headState_step h0 hi (loopBody_expansion StringToInt hrow he), ?_⟩
      rw [hsucc, he]
      simp only [loopPost, hlt, if_true, List.append_nil, hn]
    · have hslot : index? s0.LevelTypes s0.j = some LevelTypeRecord.zero := by
        rw [hj, index?_natCast, hlt, List.getElem?_append_right (le_refl _)]
        simp [List.replicate_succ]
      have hdec := decodeRow_ok StringToInt s0.i (hfields hd) hslot zero_files_length
      have hbody : loopBody StringToInt data s0 = _ :=
        (loopBody_decoded StringToInt hrow hd).trans hdec
      refine ⟨_, headState_step h0 hi hbody, ?_⟩
      have hne : data[k] ≠ "" := by
        intro hb
        rw [hb] at hd
        simp [isDecodedRow] at hd
      rw [hsucc, not_expansion_of_decoded hd]
      simp only [loopPost, Bool.false_eq_true, if_false, List.length_append,
        List.length_singleton]
      rw [show data.length - ((slotsOf StringToInt (data.take k)).length + 1) = n by omega]
      rw [hj, Int.toNat_ofNat, hlt, set_append_replicate]
      simp [slotOf, hne]

/-! ### `LoadLevelTypes` as a whole -/

theorem LoadLevelTypes_of_loop_ok {StringToInt : String → Int} {file : String}
    {sf : LoopState}
    (h : loop StringToInt (dataRows file) (dataRows file).length (initial (dataRows file)) =
      .ok sf) (st : State) :
    LoadLevelTypes StringToInt file st =
      .ok { LevelTypes := sf.LevelTypes,
            log := st.log ++
              ["Loaded " ++ toString sf.LevelTypes.length ++ " LevelType records"] } := by
  unfold LoadLevelTypes
  unfold initial at h
  simp only [h]

theorem LoadLevelTypes_of_loop_panic {StringToInt : String → Int} {file : String}
    {sf : LoopState} {p : Panic}
    (h : loop StringToInt (dataRows file) (dataRows file).length (initial (dataRows file)) =
      .panic p sf) (st : State) :
    LoadLevelTypes StringToInt file st =
      .panic p { LevelTypes := sf.LevelTypes, log := st.log } := by
  unfold LoadLevelTypes
  unfold initial at h
  simp only [h]

/-- The loop of `LoadLevelTypes` always ends within its `len(data)` iterations: the call
returns, or panics on a row with too few fields (a bounds failure on `parts`); in both
cases `LevelTypes` has one slot per data line. -/
theorem LoadLevelTypes_ends (StringToInt : String → Int) (file : String) (st : State) :
    ∃ st1, (LoadLevelTypes StringToInt file st = .ok st1 ∨
        ∃ n m, LoadLevelTypes StringToInt file st =
          .panic (.indexOutOfRange .parts n m) st1) ∧
      st1.LevelTypes.length = (dataRows file).length := by
  obtain ⟨sf, hres, hlen, -⟩ :=
    @loop_final StringToInt (dataRows file) (dataRows file).length 0
      (initial (dataRows file)) rfl (by omega)
  rcases hres with h | ⟨n, m, h⟩
  · exact ⟨_, Or.inl (LoadLevelTypes_of_loop_ok h st), hlen⟩
  · exact ⟨_, Or.inr ⟨n, m, LoadLevelTypes_of_loop_panic h st⟩, hlen⟩

theorem countExpansion_take_add_le (data : List String) (a b : Nat) :
    countExpansion (data.take (a + b)) ≤ countExpansion (data.take a) + b := by
  induction b with
  | zero => simp
  | succ b ih =>
    rw [← Nat.add_assoc]
    cases h : data[a + b]? with
    | none =>
      have : countExpansion (data.take (a + b + 1)) = countExpansion (data.take (a + b)) := by
        simp [countExpansion, List.take_succ, h]
      omega
    | some row =>
      have := countExpansion_take_succ h
      split at this <;> omega

/-- Slots of two decoded rows: a later decoded row is stored strictly above. -/
theorem slot_lt_of_lt {data : List String} {a b : Nat} (hab : a < b)
    (hb : b ≤ data.length) (hdec : isDecodedRow (data.getD a "") = true) :
    (a : Int) - (countExpansion (data.take a) : Int) <
      (b : Int) - (countExpansion (data.take b) : Int) := by
  have ha : a < data.length := by omega
  have hrow : data[a]? = some (data.getD a "") := by
    simp [List.getD_eq_getElem?_getD, List.getElem?_eq_getElem ha]
  have h1 := countExpansion_take_succ hrow
  rw [not_expansion_of_decoded hdec] at h1
  have h2 := countExpansion_take_add_le data (a + 1) (b - (a + 1))
  rw [show a + 1 + (b - (a + 1)) = b by omega] at h2
  simp only [Bool.false_eq_true, if_false, Nat.add_zero] at h1
  omega

theorem fields_fooRow :
    fields fooRow =
      "Foo" :: "5" :: (List.replicate 32 "0" ++ ["1", "1", "1"]) := by
  decide

theorem isDecodedRow_iff (row : String) :
    isDecodedRow row = true ↔ row ≠ "" ∧ (fields row)[0]? ≠ some "Expansion" := by
  simp [isDecodedRow]

/-! ### The claims about `LoadLevelTypes` -/

/-- C5, refuted as stated: in the file `H / expansion / Foo...` the row `Foo` (data
index 1) is not blank, its first field is not `"Expansion"` and it has 37 fields; but the
row before it, `expansion`, is neither blank nor the sentinel and has a single field, so
`LoadLevelTypes` panics on `parts[1]` while decoding that row and never reaches `Foo`:
the run ends with `LevelTypes[1]` zero-valued and the record of `Foo` nowhere in the
table. -/
theorem LoadLevelTypes_row_not_reached :
    (dataRows ("H\r\nexpansion\r\n" ++ fooRow))[1]? = some fooRow ∧
    fooRow ≠ "" ∧ (fields fooRow)[0]? ≠ some "Expansion" ∧ 37 ≤ (fields fooRow).length ∧
    LoadLevelTypes d2common.StringToInt ("H\r\nexpansion\r\n" ++ fooRow) ⟨[], []⟩ =
      .panic (.indexOutOfRange .parts 1 1)
        ⟨[{ LevelTypeRecord.zero with Name := "expansion" }, LevelTypeRecord.zero], []⟩ ∧
    fooRecord ∉
      [{ LevelTypeRecord.zero with Name := "expansion" }, LevelTypeRecord.zero] := by
  decide

/-- C5, amended. Every data row (element `i` of the lines after the header) that is not
blank, whose first field is not `"Expansion"` and that has at least 37 tab-separated
fields is decoded by `LoadLevelTypes`, provided the load reaches it (every earlier row
that is neither blank nor the sentinel has at least 37 fields), to the record with
`Name = f0`, `ID = StringToInt(f1)`, `Files[k] = ""` when `f(2+k)` is the literal `"0"`
and `f(2+k)` otherwise (`k = 0..31`), `Beta = (f34 != "1")`, `Act = StringToInt(f35)`,
`Expansion = (f36 != "1")`: the run of `LoadLevelTypes` ends, by returning or by a panic
on a later row, with that record in `LevelTypes`, at index `i` minus the number of
sentinel rows before it. In particular, for a conversion that reads `"5"` as 5 and `"1"`
as 1, the row `Foo, 5, 32 x "0", 1, 1, 1` is such a row and its record is
`{Name: "Foo", ID: 5, Files: all empty, Beta: false, Act: 1, Expansion: false}`. -/
theorem LoadLevelTypes_decodes_row (StringToInt : String → Int) :
    (∀ (file : String) (st : State) (i : Nat) (row : String),
      (dataRows file)[i]? = some row →
      row ≠ "" →
      (fields row)[0]? ≠ some "Expansion" →
      37 ≤ (fields row).length →
      wellFormedRows ((dataRows file).take i) = true →
      ∃ st1, (LoadLevelTypes StringToInt file st).final? = some st1 ∧
        st1.LevelTypes[i - countExpansion ((dataRows file).take i)]? =
          some { Name := (fields row).getD 0 "",
                 ID := StringToInt ((fields row).getD 1 ""),
                 Files := (List.range 32).map fun k =>
                   if (fields row).getD (2 + k) "" = "0" then ""
                   else (fields row).getD (2 + k) "",
                 Beta := (fields row).getD 34 "" != "1",
                 Act := StringToInt ((fields row).getD 35 ""),
                 Expansion := (fields row).getD 36 "" != "1" }) ∧
    (StringToInt "5" = 5 → StringToInt "1" = 1 →
      fooRow ≠ "" ∧ (fields fooRow)[0]? ≠ some "Expansion" ∧ (fields fooRow).length = 37 ∧
      decodeFields StringToInt (fields fooRow) =
        { Name := "Foo", ID := 5, Files := List.replicate 32 "", Beta := false, Act := 1,
          Expansion := false }) := by
  constructor
  · intro file st i row hrow hblank hfirst hlen hprev
    have hi : i < (dataRows file).length := (List.getElem?_eq_some.mp hrow).1
    have hdec : isDecodedRow row = true := (isDecodedRow_iff row).mpr ⟨hblank, hfirst⟩
    -- the rows up to and including row `i` are well formed
    have hw : wellFormedRows ((dataRows file).take (i + 1)) = true := by
      unfold wellFormedRows at *
      rw [List.take_succ, hrow, List.all_append, hprev]
      simp [hlen]
    obtain ⟨s, hs, hlt⟩ := headState_wellFormed StringToInt (dataRows file) (i + 1) hi hw
    have inv := headState_inv hs
    have hcount := countExpansion_take_succ hrow
    rw [not_expansion_of_decoded hdec] at hcount
    simp only [Bool.false_eq_true, if_false, Nat.add_zero] at hcount
    have hslots := slotsOf_take_succ StringToInt hrow
    rw [not_expansion_of_decoded hdec] at hslots
    simp only [Bool.false_eq_true, if_false] at hslots
    have hle := countExpansion_take_le (dataRows file) i
    have hlenadd := slotsOf_length_add StringToInt ((dataRows file).take i)
    have htake : ((dataRows file).take i).length = i := by simp; omega
    have hidx : i - countExpansion ((dataRows file).take i) =
        (slotsOf StringToInt ((dataRows file).take i)).length := by omega
    -- the slot of row `i` in the state at the head of iteration `i + 1`
    have hslot : s.LevelTypes[i - countExpansion ((dataRows file).take i)]? =
        some (decodeFields StringToInt (fields row)) := by
      rw [hlt, hslots, hidx, List.append_assoc, List.getElem?_append_right (le_refl _)]
      simp [slotOf, hblank]
    -- the rest of the loop leaves it alone
    obtain ⟨sf, hres, -, hkeep⟩ :=
      loop_final ((dataRows file).length - (i + 1)) hs (le_refl _)
    have hbridge := loop_eq_of_headState hs ((dataRows file).length - (i + 1))
    rw [show (dataRows file).length - (i + 1) + (i + 1) = (dataRows file).length by omega]
      at hbridge
    have hfinal : sf.LevelTypes[i - countExpansion ((dataRows file).take i)]? =
        some (decodeFields StringToInt (fields row)) := by
      rw [hkeep _ (by rw [inv.j_eq]; omega)]
      exact hslot
    rcases hres with h | ⟨n, m, h⟩
    · rw [← hbridge] at h
      exact ⟨_, by rw [LoadLevelTypes_of_loop_ok h st]; rfl, hfinal⟩
    · rw [← hbridge] at h
      exact ⟨_, by rw [LoadLevelTypes_of_loop_panic h st]; rfl, hfinal⟩
  · intro h5 h1
    refine ⟨by decide, by decide, by decide, ?_⟩
    rw [fields_fooRow]
    have : decodeFields StringToInt
        ("Foo" :: "5" :: (List.replicate 32 "0" ++ ["1", "1", "1"])) =
        { Name := "Foo", ID := StringToInt "5", Files := List.replicate 32 "",
          Beta := false, Act := StringToInt "1", Expansion := false } := by
      rfl
    rw [this, h5, h1]

/-- C5 amended, on the scenario of the specification: the file made of a header line and the row
`Foo, 5, 32 x "0", 1, 1, 1` is loaded with the record
`{Name: "Foo", ID: 5, Files: all empty, Beta: false, Act: 1, Expansion: false}` in slot 0. -/
theorem LoadLevelTypes_decodes_row_witness :
    (dataRows ("Name\tId\r\n" ++ fooRow))[0]? = some fooRow ∧
    fooRow ≠ "" ∧ (fields fooRow)[0]? ≠ some "Expansion" ∧ 37 ≤ (fields fooRow).length ∧
    wellFormedRows ((dataRows ("Name\tId\r\n" ++ fooRow)).take 0) = true ∧
    d2common.StringToInt "5" = 5 ∧ d2common.StringToInt "1" = 1 ∧
    ∃ st1, (LoadLevelTypes d2common.StringToInt ("Name\tId\r\n" ++ fooRow)
        ⟨[], []⟩).final? = some st1 ∧ st1.LevelTypes[0]? = some fooRecord := by
  refine ⟨by decide, by decide, by decide, by decide, by decide, by decide, by decide, ?_⟩
  obtain ⟨st1, h1, h2⟩ :=
    (LoadLevelTypes_decodes_row d2common.StringToInt).1 ("Name\tId\r\n" ++ fooRow) ⟨[], []⟩
      0 fooRow (by decide) (by decide) (by decide) (by decide) (by decide)
  have hrec := ((LoadLevelTypes_decodes_row d2common.StringToInt).2
    (by decide) (by decide)).2.2.2
  refine ⟨st1, h1, ?_⟩
  rw [show fooRecord = decodeFields d2common.StringToInt (fields fooRow) from hrec.symm]
  exact h2

/-- C6, refuted as stated: the file `Name<CR><LF>Expansion<CR><LF>` is well formed and has
no data row that is neither blank nor the sentinel, yet `LoadLevelTypes` returns with two
(zero-valued) records in `LevelTypes` and logs `Loaded 2 LevelType records`: the sentinel
row and the blank line after the last line break each leave a record. -/
theorem LoadLevelTypes_length_counterexample :
    dataRows "Name\r\nExpansion\r\n" = ["Expansion", ""] ∧
    wellFormedRows (dataRows "Name\r\nExpansion\r\n") = true ∧
    ((dataRows "Name\r\nExpansion\r\n").filter isDecodedRow).length = 0 ∧
    LoadLevelTypes d2common.StringToInt "Name\r\nExpansion\r\n" ⟨[], []⟩ =
      .ok ⟨[LevelTypeRecord.zero, LevelTypeRecord.zero], ["Loaded 2 LevelType records"]⟩ ∧
    ¬ (∀ (file : String) (st st1 : State), wellFormedRows (dataRows file) = true →
        LoadLevelTypes d2common.StringToInt file st = .ok st1 →
        st1.LevelTypes.length = ((dataRows file).filter isDecodedRow).length) := by
  have h4 : LoadLevelTypes d2common.StringToInt "Name\r\nExpansion\r\n" ⟨[], []⟩ =
      .ok ⟨[LevelTypeRecord.zero, LevelTypeRecord.zero], ["Loaded 2 LevelType records"]⟩ := by
    decide
  refine ⟨by decide, by decide, by decide, h4, fun h => ?_⟩
  have := h _ _ _ (by decide) h4
  revert this
  decide

/-- C6, amended. `LoadLevelTypes` skips the header line and, on every well-formed input
(each row that is neither blank nor the sentinel has at least 37 fields), returns with
`LevelTypes` holding one slot per data line: first, in input order, one slot for every
line other than the sentinel row (the decoded record for a row, a zero-valued record for
a blank line), then one zero-valued record per sentinel row. Its length is the number of
lines after the header, which is also what the log line reports. -/
theorem LoadLevelTypes_table (StringToInt : String → Int) (file : String) (st : State)
    (hw : wellFormedRows (dataRows file) = true) :
    LoadLevelTypes StringToInt file st =
      .ok { LevelTypes :=
              ((dataRows file).filter fun row => !isExpansionRow row).map
                  (fun row => if row = "" then LevelTypeRecord.zero
                    else decodeFields StringToInt (fields row)) ++
                List.replicate (countExpansion (dataRows file)) LevelTypeRecord.zero,
            log := st.log ++
              ["Loaded " ++ toString (dataRows file).length ++ " LevelType records"] } ∧
    (((dataRows file).filter fun row => !isExpansionRow row).map
        (fun row => if row = "" then LevelTypeRecord.zero
          else decodeFields StringToInt (fields row)) ++
      List.replicate (countExpansion (dataRows file)) LevelTypeRecord.zero).length =
        (dataRows file).length := by
  have htake : (dataRows file).take (dataRows file).length = dataRows file :=
    List.take_length _
  obtain ⟨s, hs, hlt⟩ := headState_wellFormed StringToInt (dataRows file)
    (dataRows file).length (le_refl _) (by rw [htake]; exact hw)
  rw [htake] at hlt
  have inv := headState_inv hs
  have hadd := slotsOf_length_add StringToInt (dataRows file)
  have hexp : s.LevelTypes = expectedTable StringToInt (dataRows file) := by
    rw [hlt]
    unfold expectedTable
    rw [show (dataRows file).length - (slotsOf StringToInt (dataRows file)).length =
      countExpansion (dataRows file) by omega]
    rfl
  have hloop : loop StringToInt (dataRows file) (dataRows file).length
      (initial (dataRows file)) = .ok s := by
    have := loop_eq_of_headState hs 0
    rw [Nat.zero_add] at this
    rw [this]
    unfold loop
    simp [inv.i_eq]
  have hres := LoadLevelTypes_of_loop_ok hloop st
  rw [inv.length_eq, hexp] at hres
  refine ⟨hres, ?_⟩
  have : (expectedTable StringToInt (dataRows file)).length = (dataRows file).length := by
    rw [← hexp, inv.length_eq]
  exact this

/-- C6 amended, on a file with a decoded row, a sentinel row and a final blank line. -/
theorem LoadLevelTypes_table_witness :
    wellFormedRows (dataRows ("Name\r\n" ++ fooRow ++ "\r\nExpansion\r\n")) = true ∧
    LoadLevelTypes d2common.StringToInt ("Name\r\n" ++ fooRow ++ "\r\nExpansion\r\n")
        ⟨[], []⟩ =
      .ok ⟨[fooRecord, LevelTypeRecord.zero, LevelTypeRecord.zero],
           ["Loaded 3 LevelType records"]⟩ := by
  refine ⟨by decide, ?_⟩
  rw [(LoadLevelTypes_table d2common.StringToInt
    ("Name\r\n" ++ fooRow ++ "\r\nExpansion\r\n") ⟨[], []⟩ (by decide)).1]
  decide

/-- C10. Loop invariant of `LoadLevelTypes`: whenever the loop reaches iteration `i`
(state `s` at its head, so that the run of the loop continues from `s`) and the row at
data index `i` is decoded, the destination index `j` equals `i` minus the number of
sentinel rows among the data rows `0..i-1`; hence `0 <= j <= i < len(LevelTypes)`, the
body never fails a bounds check on `LevelTypes`, and two distinct decoded rows never
write the same slot. -/
theorem LoadLevelTypes_slot_invariant (StringToInt : String → Int) (file : String)
    (i : Nat) (s : LoopState)
    (hreach : headState StringToInt (dataRows file) i = some s)
    (hi : i < (dataRows file).length)
    (hdec : isDecodedRow ((dataRows file).getD i "") = true) :
    loop StringToInt (dataRows file) (dataRows file).length (initial (dataRows file)) =
      loop StringToInt (dataRows file) ((dataRows file).length - i) s ∧
    s.i = i ∧
    s.j = (i : Int) - (countExpansion ((dataRows file).take i) : Int) ∧
    0 ≤ s.j ∧ s.j ≤ (s.i : Int) ∧ s.i < s.LevelTypes.length ∧
    (∀ k n sp, loopBody StringToInt (dataRows file) s ≠
      .panic (.indexOutOfRange .LevelTypes k n) sp) ∧
    (∀ i2 s2, headState StringToInt (dataRows file) i2 = some s2 →
      i2 < (dataRows file).length →
      isDecodedRow ((dataRows file).getD i2 "") = true → i2 ≠ i → s2.j ≠ s.j) := by
  have inv := headState_inv hreach
  have hle := countExpansion_take_le (dataRows file) i
  have hbridge := loop_eq_of_headState hreach ((dataRows file).length - i)
  rw [show (dataRows file).length - i + i = (dataRows file).length by omega] at hbridge
  refine ⟨hbridge, inv.i_eq, inv.j_eq, ?_, ?_, ?_, ?_, ?_⟩
  · rw [inv.j_eq]; omega
  · rw [inv.j_eq, inv.i_eq]; omega
  · rw [inv.i_eq, inv.length_eq]; exact hi
  · intro k n sp hp
    have hsi : s.i < (dataRows file).length := by rw [inv.i_eq]; exact hi
    rcases loopBody_effect StringToInt hsi (headInv_inRange inv hi) with
      ⟨s1, hb, -⟩ | ⟨k2, n2, s1, hb, -⟩
    · rw [hb] at hp; cases hp
    · rw [hb] at hp; cases hp
  · intro i2 s2 h2 hi2 hdec2 hne
    have inv2 := headState_inv h2
    rw [inv.j_eq, inv2.j_eq]
    rcases Nat.lt_or_gt_of_ne hne with hlt | hgt
    · have := slot_lt_of_lt hlt (le_of_lt hi) hdec2
      omega
    · have := slot_lt_of_lt hgt (le_of_lt hi2) hdec
      omega

/-- C10 on the file `Name / Expansion / Foo...`: the row `Foo` (data index 1) is reached
with `j = 0`. -/
theorem LoadLevelTypes_slot_invariant_witness :
    headState d2common.StringToInt (dataRows ("Name\r\nExpansion\r\n" ++ fooRow)) 1 =
      some ⟨1, 0, -1, [LevelTypeRecord.zero, LevelTypeRecord.zero]⟩ ∧
    1 < (dataRows ("Name\r\nExpansion\r\n" ++ fooRow)).length ∧
    isDecodedRow ((dataRows ("Name\r\nExpansion\r\n" ++ fooRow)).getD 1 "") = true ∧
    (0 : Int) = ((1 : Nat) : Int) -
      (countExpansion ((dataRows ("Name\r\nExpansion\r\n" ++ fooRow)).take 1) : Int) :=
  ⟨by decide, by decide, by decide,
    (LoadLevelTypes_slot_invariant d2common.StringToInt
      ("Name\r\nExpansion\r\n" ++ fooRow) 1
      ⟨1, 0, -1, [LevelTypeRecord.zero, LevelTypeRecord.zero]⟩
      (by decide) (by decide) (by decide)).2.2.1⟩

end d2datadict

namespace d2asset

/-! ### The facade -/

theorem Initialize_of_uninit (env : Env) (term : TermRef) (w : World)
    (h : w.singleton = none) :
    Initialize env (some term) w = .returned none (afterInitialize env term w) := by
  simp [Initialize, verifyNotInit, h, Outcome.bind, derefTerminal, createArchiveManager,
    createFileManager,
    createPaletteManager, createPaletteTransformManager, createAnimationManager,
    createFontManager, new, BindAction, afterInitialize, freshManagers, freshSingleton,
    boundActions, Nat.add_assoc]

theorem Initialize_nil_of_uninit (env : Env) (w : World) (h : w.singleton = none) :
    Initialize env none w = .panicked .nilDereference (afterConstruction env w) := by
  simp [Initialize, verifyNotInit, h, Outcome.bind, derefTerminal, createArchiveManager,
    createFileManager, createPaletteManager, createPaletteTransformManager,
    createAnimationManager, createFontManager, new, afterConstruction, freshManagers,
    freshSingleton, Nat.add_assoc]

theorem Initialize_of_init (env : Env) (term : Option TermRef) (w : World)
    (h : w.singleton ≠ none) :
    Initialize env term w = .panicked .ErrWasInit w := by
  cases hs : w.singleton with
  | none => exact absurd hs h
  | some s => simp [Initialize, verifyNotInit, hs, Outcome.bind]

theorem onCache_heap_getElem? (a : Addr) (f : Cache → Cache) (w : World) (b : Addr) :
    (onCache a f w).heap[b]? =
      w.heap[b]?.map fun m => if b = a then { m with cache := f m.cache } else m := by
  unfold onCache
  cases ha : w.heap[a]? with
  | none =>
    by_cases hb : b = a
    · subst hb; simp [ha]
    · simp [hb]
  | some m =>
    have hlt : a < w.heap.length := (List.getElem?_eq_some.mp ha).1
    by_cases hb : b = a
    · subst hb; simp [ha, List.getElem?_set, hlt]
    · have hab : a ≠ b := fun h => hb h.symm
      simp [hb, List.getElem?_set, hab]

theorem onCache_frame (a : Addr) (f : Cache → Cache) (w : World) :
    (onCache a f w).singleton = w.singleton ∧ (onCache a f w).terminals = w.terminals ∧
      (onCache a f w).log = w.log ∧ (onCache a f w).heap.length = w.heap.length := by
  unfold onCache
  cases w.heap[a]? <;> simp

theorem cache_Clear_Clear (c : Cache) : c.Clear.Clear = c.Clear := rfl

theorem verifyWasInit_of_init {w : World} {s : assetManager} (h : w.singleton = some s) :
    verifyWasInit w = .returned () w := by
  simp [verifyWasInit, h]

theorem verifyWasInit_of_uninit {w : World} (h : w.singleton = none) :
    verifyWasInit w = .panicked .ErrNotInit w := by
  simp [verifyWasInit, h]

/-- C1. Every public load/query operation of the facade, for every argument and whatever
the managers would do, is fatal while the facade is uninitialized (`singleton == nil`): it
panics with `ErrNotInit`, in the state it was called in (no manager has been consulted),
and returns neither a value nor an error. -/
theorem load_uninitialized_panics (env : Env) (w : World) (h : w.singleton = none) :
    (∀ archivePath, LoadArchive env archivePath w = .panicked .ErrNotInit w) ∧
    (∀ filePath, LoadFileStream env filePath w = .panicked .ErrNotInit w) ∧
    (∀ filePath, LoadFile env filePath w = .panicked .ErrNotInit w) ∧
    (∀ filePath, FileExists env filePath w = .panicked .ErrNotInit w) ∧
    (∀ animationPath palettePath,
      LoadAnimation env animationPath palettePath w = .panicked .ErrNotInit w) ∧
    (∀ animationPath palettePath transparency,
      LoadAnimationWithTransparency env animationPath palettePath transparency w =
        .panicked .ErrNotInit w) ∧
    (∀ pl2Path, LoadPaletteTransform env pl2Path w = .panicked .ErrNotInit w) ∧
    (∀ object palettePath,
      LoadComposite env object palettePath w = .panicked .ErrNotInit w) ∧
    (∀ tablePath spritePath palettePath,
      LoadFont env tablePath spritePath palettePath w = .panicked .ErrNotInit w) ∧
    (∀ palettePath, LoadPalette env palettePath w = .panicked .ErrNotInit w) := by
  have hv := verifyWasInit_of_uninit h
  refine ⟨?_, ?_, ?_, ?_, ?_, ?_, ?_, ?_, ?_, ?_⟩ <;> intros <;>
    simp [LoadArchive, LoadFileStream, LoadFile, FileExists, LoadAnimation,
      LoadAnimationWithTransparency, LoadPaletteTransform, LoadComposite, LoadFont,
      LoadPalette, hv, Outcome.bind]

/-- C1 on the empty state, with collaborators that would fail with an ordinary error. -/
theorem load_uninitialized_panics_witness :
    World.empty.singleton = none ∧
    LoadFile Env.failing "data/global/excel/levels.txt" World.empty =
      .panicked .ErrNotInit World.empty :=
  ⟨rfl, (load_uninitialized_panics Env.failing World.empty rfl).2.2.1 _⟩

/-- C2, refuted as stated: on the empty state (facade uninitialized) the call
`Initialize(nil)` is fatal although no facade is initialized: it constructs the six
managers, stores `singleton`, and panics with a nil dereference at the first
`term.BindAction`. So `Initialize` is not fatal exactly when the facade is already
initialized, for every terminal. -/
theorem Initialize_nil_terminal_fatal :
    World.empty.singleton = none ∧
    Initialize Env.failing none World.empty =
      .panicked .nilDereference
        { singleton := some (freshSingleton 0),
          heap := freshManagers Env.failing 0,
          terminals := World.empty.terminals,
          log := [] } ∧
    (Initialize Env.failing none World.empty).panic? = some .nilDereference ∧
    ¬ (∀ (term : Option TermRef) (w : World),
        (∃ p w1, Initialize Env.failing term w = .panicked p w1) ↔ w.singleton ≠ none) := by
  have h2 : Initialize Env.failing none World.empty =
      .panicked .nilDereference
        { singleton := some (freshSingleton 0),
          heap := freshManagers Env.failing 0,
          terminals := World.empty.terminals,
          log := [] } := rfl
  refine ⟨rfl, h2, rfl, fun hall => ?_⟩
  exact (hall none World.empty).mp ⟨_, _, h2⟩ rfl

/-- C2, amended. For every terminal, the nil interface included, `Initialize` panics with
`ErrWasInit` if and only if `singleton` is non-nil at the call, and in that case the state
is the one it was called in: `singleton` is unchanged, no manager has been constructed and
no console action has been bound. For every non-nil terminal `Initialize` is fatal exactly
in that case: it panics if and only if `singleton` is non-nil at the call. -/
theorem Initialize_panics_iff (env : Env) (term : Option TermRef) (w : World) :
    ((∃ w1, Initialize env term w = .panicked .ErrWasInit w1) ↔ w.singleton ≠ none) ∧
    (w.singleton ≠ none →
      Initialize env term w = .panicked .ErrWasInit w ∧
      (Initialize env term w).world.singleton = w.singleton ∧
      (Initialize env term w).world.heap = w.heap ∧
      (Initialize env term w).world.terminals = w.terminals) ∧
    (∀ t : TermRef,
      (∃ p w1, Initialize env (some t) w = .panicked p w1) ↔ w.singleton ≠ none) := by
  by_cases h : w.singleton = none
  · refine ⟨?_, fun hne => absurd h hne, fun t => ?_⟩
    · constructor
      · rintro ⟨w1, hp⟩
        cases term with
        | none =>
          rw [Initialize_nil_of_uninit env w h] at hp
          cases hp
        | some t =>
          rw [Initialize_of_uninit env t w h] at hp
          cases hp
      · intro hne
        exact absurd h hne
    · constructor
      · rintro ⟨p, w1, hp⟩
        rw [Initialize_of_uninit env t w h] at hp
        cases hp
      · intro hne
        exact absurd h hne
  · have hi := Initialize_of_init env term w h
    refine ⟨⟨fun _ => h, fun _ => ⟨_, hi⟩⟩, fun _ => ?_,
      fun t => ⟨fun _ => h, fun _ => ⟨_, _, Initialize_of_init env (some t) w h⟩⟩⟩
    rw [hi]
    exact ⟨rfl, rfl, rfl, rfl⟩

/-- C2 amended, on the state left by a first `Initialize`: the second call panics with
`ErrWasInit` and leaves that state. -/
theorem Initialize_panics_iff_witness :
    World.started.singleton ≠ none ∧
    Initialize Env.failing (some 0) World.started = .panicked .ErrWasInit World.started :=
  ⟨by decide, ((Initialize_panics_iff Env.failing (some 0) World.started).2.1 (by decide)).1⟩

/-- C3, refuted as stated: from the initialized state left by a first `Initialize`,
`Shutdown` leaves the facade uninitialized, and the subsequent call `Initialize(nil)` does
not return a nil error: it panics with a nil dereference at the first `term.BindAction`
(after it has stored `singleton` again). -/
theorem Initialize_after_Shutdown_nil_terminal :
    World.started.singleton ≠ none ∧
    (Shutdown World.started).singleton = none ∧
    (Initialize Env.failing none (Shutdown World.started)).panic? = some .nilDereference ∧
    (Initialize Env.failing none (Shutdown World.started)).world.singleton =
      some (freshSingleton 6) ∧
    ((Initialize Env.failing none (Shutdown World.started)).world.terminals 0).bindings =
      (World.started.terminals 0).bindings ∧
    ¬ (∀ (term : Option TermRef) (w : World),
        ∃ w1, Initialize Env.failing term (Shutdown w) = .returned none w1) := by
  refine ⟨by decide, rfl, rfl, rfl, rfl, fun hall => ?_⟩
  obtain ⟨w1, h⟩ := hall none World.started
  rw [Initialize_nil_of_uninit Env.failing (Shutdown World.started) rfl] at h
  cases h

/-- C3, amended. The facade follows the state machine Uninitialized, Initialized,
Uninitialized: from every state `Shutdown` leaves the facade uninitialized (and changes
nothing else); a subsequent `Initialize` with a non-nil terminal does not panic, returns a
nil error and leaves the facade initialized, `singleton` pointing to six managers
constructed by this call (addresses not on the heap before, one manager of each type, each
with a fresh cache) and the three diagnostic actions bound; after it every load operation
returns instead of taking the fatal not-initialized path, and a further `Shutdown` makes
the facade uninitialized again. -/
theorem Shutdown_then_Initialize (env : Env) (term : TermRef) (w : World) :
    (Shutdown w).singleton = none ∧
    (Shutdown w).heap = w.heap ∧ (Shutdown w).terminals = w.terminals ∧
    (Shutdown w).log = w.log ∧
    ∃ w1, Initialize env (some term) (Shutdown w) = .returned none w1 ∧
      w1.singleton = some (freshSingleton w.heap.length) ∧
      w1.heap = w.heap ++ freshManagers env w.heap.length ∧
      (∀ a : Nat, a ∈ (freshSingleton w.heap.length).all →
        w.heap.length ≤ a ∧ a < w1.heap.length) ∧
      (w1.heap.drop w.heap.length).map (fun m => (m.kind, m.cache.entries, m.cache.verbose)) =
        [(.archive, [], false), (.file, [], false), (.palette, [], false),
          (.paletteTransform, [], false), (.animation, [], false), (.font, [], false)] ∧
      (w1.terminals term).bindings =
        (w.terminals term).bindings ++ boundActions term (freshSingleton w.heap.length) ∧
      verifyWasInit w1 = .returned () w1 ∧
      (∀ archivePath, ∃ r w2, LoadArchive env archivePath w1 = .returned r w2) ∧
      (∀ filePath, ∃ r w2, LoadFileStream env filePath w1 = .returned r w2) ∧
      (∀ filePath, ∃ r w2, LoadFile env filePath w1 = .returned r w2) ∧
      (∀ filePath, ∃ r w2, FileExists env filePath w1 = .returned r w2) ∧
      (∀ animationPath palettePath, ∃ r w2,
        LoadAnimation env animationPath palettePath w1 = .returned r w2) ∧
      (∀ animationPath palettePath transparency, ∃ r w2,
        LoadAnimationWithTransparency env animationPath palettePath transparency w1 =
          .returned r w2) ∧
      (∀ pl2Path, ∃ r w2, LoadPaletteTransform env pl2Path w1 = .returned r w2) ∧
      (∀ object palettePath, ∃ r w2,
        LoadComposite env object palettePath w1 = .returned r w2) ∧
      (∀ tablePath spritePath palettePath, ∃ r w2,
        LoadFont env tablePath spritePath palettePath w1 = .returned r w2) ∧
      (∀ palettePath, ∃ r w2, LoadPalette env palettePath w1 = .returned r w2) ∧
      (Shutdown w1).singleton = none := by
  refine ⟨rfl, rfl, rfl, rfl, afterInitialize env term (Shutdown w),
    Initialize_of_uninit env term (Shutdown w) rfl, rfl, rfl, ?_, ?_, ?_, ?_⟩
  · intro a ha
    have hlen : (afterInitialize env term (Shutdown w)).heap.length = w.heap.length + 6 := by
      simp [afterInitialize, Shutdown, freshManagers]
    rw [hlen]
    simp [assetManager.all, freshSingleton] at ha
    rcases ha with rfl | rfl | rfl | rfl | rfl | rfl <;> constructor <;> omega
  · simp [afterInitialize, Shutdown, freshManagers, Cache.create]
  · simp [afterInitialize, Shutdown]
  · have hv : verifyWasInit (afterInitialize env term (Shutdown w)) =
        .returned () (afterInitialize env term (Shutdown w)) :=
      verifyWasInit_of_init (s := freshSingleton w.heap.length) rfl
    have hd : derefSingleton (afterInitialize env term (Shutdown w)) =
        .returned (freshSingleton w.heap.length) (afterInitialize env term (Shutdown w)) := rfl
    refine ⟨hv, ?_, ?_, ?_, ?_, ?_, ?_, ?_, ?_, ?_, ?_, rfl⟩ <;> intros <;>
      simp only [LoadArchive, LoadFileStream, LoadFile, FileExists, LoadAnimation,
        LoadAnimationWithTransparency, LoadPaletteTransform, LoadComposite, LoadFont,
        LoadPalette, hv, hd, Outcome.bind] <;>
      exact ⟨_, _, rfl⟩

/-- The closure bound to `"assetspam"` leaves every manager it does not capture as it
is; the manager behind `fontManager` is among them. -/
theorem assetspam_frame (term : TermRef) (a f p pt an : Addr) (verbose : Bool) (w : World)
    (b : Nat) (hb : b ∉ [a, f, p, pt, an]) :
    (assetspam term a f p pt an verbose w).heap[b]? = w.heap[b]? := by
  simp only [List.mem_cons, List.mem_singleton, List.not_mem_nil, or_false, not_or] at hb
  obtain ⟨h1, h2, h3, h4, h5⟩ := hb
  unfold assetspam
  simp only [onCache_heap_getElem?, h1, h2, h3, h4, h5, if_false, Option.map_map]
  cases verbose <;> simp [OutputInfo] <;> cases w.heap[b]? <;> rfl

/-- C7, on the code: after `Initialize` on the empty state the first action bound is
`"assetspam"`; invoking it with `verbose = true` sets the verbosity flag of the caches of
the archive, file, palette, palette-transform and animation managers, and leaves the flag
of the cache of the font manager `false`: `SetVerbose` is not called on the font cache. -/
theorem assetspam_skips_font_cache :
    World.started.singleton = some ⟨0, 1, 2, 3, 4, 5⟩ ∧
    (World.started.terminals 0).bindings.map (fun b => b.name) =
      ["assetspam", "assetstat", "assetclear"] ∧
    (World.started.terminals 0).bindings[0]? =
      some ⟨"assetspam", "display verbose asset manager logs", .assetspam 0 0 1 2 3 4⟩ ∧
    World.started.heap.map (fun m => (m.kind, m.cache.verbose)) =
      [(.archive, false), (.file, false), (.palette, false), (.paletteTransform, false),
        (.animation, false), (.font, false)] ∧
    ((Action.assetspam 0 0 1 2 3 4).invoke true World.started).heap.map
        (fun m => (m.kind, m.cache.verbose)) =
      [(.archive, true), (.file, true), (.palette, true), (.paletteTransform, true),
        (.animation, true), (.font, false)] := by
  decide

theorem heap_fresh (env : Env) (heap : List Manager) (k : Nat) :
    (heap ++ freshManagers env heap.length)[heap.length + k]? =
      (freshManagers env heap.length)[k]? := by
  rw [List.getElem?_append_right (Nat.le_add_right _ _), Nat.add_sub_cancel_left]

theorem clear_ite (c d : Prop) [Decidable c] [Decidable d] (m : Manager) :
    (if c then
        { (if d then { m with cache := m.cache.Clear } else m) with
          cache := (if d then { m with cache := m.cache.Clear } else m).cache.Clear }
      else (if d then { m with cache := m.cache.Clear } else m)) =
      if d ∨ c then { m with cache := m.cache.Clear } else m := by
  by_cases hc : c <;> by_cases hd : d <;> simp [hc, hd, Cache.Clear]

theorem assetclear_heap_getElem? (a f p pt an fo : Addr) (w : World) (b : Nat) :
    (assetclear a f p pt an fo w).heap[b]? =
      w.heap[b]?.map fun m =>
        if b ∈ [a, f, p, pt, an, fo] then { m with cache := m.cache.Clear } else m := by
  unfold assetclear
  simp only [onCache_heap_getElem?, Option.map_map]
  cases w.heap[b]? with
  | none => rfl
  | some m =>
    simp only [Option.map_some', Function.comp_apply]
    rw [clear_ite, clear_ite, clear_ite, clear_ite, clear_ite]
    simp only [List.mem_cons, List.mem_singleton, List.not_mem_nil, or_false, or_assoc]

theorem invoke_assetclear (a f p pt an fo : Addr) (arg : Bool) (w : World) :
    (Action.assetclear a f p pt an fo).invoke arg w = assetclear a f p pt an fo w := rfl

theorem assetclear_frame (a f p pt an fo : Addr) (w : World) :
    (assetclear a f p pt an fo w).singleton = w.singleton ∧
      (assetclear a f p pt an fo w).terminals = w.terminals ∧
      (assetclear a f p pt an fo w).log = w.log ∧
      (assetclear a f p pt an fo w).heap.length = w.heap.length := by
  unfold assetclear
  simp only [onCache_frame, and_self]

/-- C8. The `"assetclear"` action registered by `Initialize` clears all six caches: the
third action `Initialize` binds on the terminal is `"assetclear"`, a closure over the six
managers (archive, file, palette, palette-transform, animation, font) this call
constructed and stored in `singleton`; invoked in any state, it applies `Clear` to the
cache of each of them and changes nothing else: `singleton`, the consoles and the log are
the same, every manager stays at its address with its type, and every cache keeps its
budget and its verbosity flag. -/
theorem assetclear_clears_all (env : Env) (term : TermRef) (w0 : World)
    (h : w0.singleton = none) :
    ∃ w1 s, Initialize env (some term) w0 = .returned none w1 ∧ w1.singleton = some s ∧
      s.all.map (fun a => w1.heap[a]?.map fun m => m.kind) =
        [some .archive, some .file, some .palette, some .paletteTransform,
          some .animation, some .font] ∧
      (w1.terminals term).bindings[(w0.terminals term).bindings.length + 2]? =
        some ⟨"assetclear", "clear asset manager cache",
          .assetclear s.archiveManager s.fileManager s.paletteManager
            s.paletteTransformManager s.animationManager s.fontManager⟩ ∧
      ∀ (w : World) (arg : Bool),
        ((Action.assetclear s.archiveManager s.fileManager s.paletteManager
            s.paletteTransformManager s.animationManager s.fontManager).invoke arg
            w).singleton = w.singleton ∧
        ((Action.assetclear s.archiveManager s.fileManager s.paletteManager
            s.paletteTransformManager s.animationManager s.fontManager).invoke arg
            w).terminals = w.terminals ∧
        ((Action.assetclear s.archiveManager s.fileManager s.paletteManager
            s.paletteTransformManager s.animationManager s.fontManager).invoke arg
            w).log = w.log ∧
        ((Action.assetclear s.archiveManager s.fileManager s.paletteManager
            s.paletteTransformManager s.animationManager s.fontManager).invoke arg
            w).heap.length = w.heap.length ∧
        (∀ a : Nat,
          ((Action.assetclear s.archiveManager s.fileManager s.paletteManager
              s.paletteTransformManager s.animationManager s.fontManager).invoke arg
              w).heap[a]? =
            w.heap[a]?.map fun m =>
              if a ∈ s.all then { m with cache := m.cache.Clear } else m) ∧
        (∀ (a : Nat) (m : Manager), w.heap[a]? = some m →
          ∃ m2, ((Action.assetclear s.archiveManager s.fileManager s.paletteManager
              s.paletteTransformManager s.animationManager s.fontManager).invoke arg
              w).heap[a]? = some m2 ∧
            m2.kind = m.kind ∧ m2.uses = m.uses ∧
            m2.cache.verbose = m.cache.verbose ∧ m2.cache.budget = m.cache.budget ∧
            (a ∈ s.all → m2.cache.entries = [] ∧ m2.cache.GetWeight = 0) ∧
            (a ∉ s.all → m2 = m)) := by
  refine ⟨afterInitialize env term w0, freshSingleton w0.heap.length,
    Initialize_of_uninit env term w0 h, rfl, ?_, ?_, ?_⟩
  · have h0 := heap_fresh env w0.heap 0
    rw [Nat.add_zero] at h0
    show [_, _, _, _, _, _] = _
    simp only [afterInitialize, freshSingleton, h0, heap_fresh]
    rfl
  · simp only [afterInitialize, Function.update_same]
    rw [List.getElem?_append_right (Nat.le_add_right _ _), Nat.add_sub_cancel_left]
    rfl
  · intro w arg
    simp only [invoke_assetclear]
    have hframe := assetclear_frame (freshSingleton w0.heap.length).archiveManager
      (freshSingleton w0.heap.length).fileManager (freshSingleton w0.heap.length).paletteManager
      (freshSingleton w0.heap.length).paletteTransformManager
      (freshSingleton w0.heap.length).animationManager
      (freshSingleton w0.heap.length).fontManager w
    have hget := assetclear_heap_getElem? (freshSingleton w0.heap.length).archiveManager
      (freshSingleton w0.heap.length).fileManager (freshSingleton w0.heap.length).paletteManager
      (freshSingleton w0.heap.length).paletteTransformManager
      (freshSingleton w0.heap.length).animationManager
      (freshSingleton w0.heap.length).fontManager w
    refine ⟨hframe.1, hframe.2.1, hframe.2.2.1, hframe.2.2.2, hget, ?_⟩
    intro a m hm
    rw [hget a, hm]
    by_cases hin : a ∈ [(freshSingleton w0.heap.length).archiveManager,
        (freshSingleton w0.heap.length).fileManager,
        (freshSingleton w0.heap.length).paletteManager,
        (freshSingleton w0.heap.length).paletteTransformManager,
        (freshSingleton w0.heap.length).animationManager,
        (freshSingleton w0.heap.length).fontManager]
    · simp only [Option.map_some', hin, if_true]
      exact ⟨_, rfl, rfl, rfl, rfl, rfl, fun _ => ⟨rfl, rfl⟩, fun hn => absurd hin hn⟩
    · simp only [Option.map_some', hin, if_false]
      exact ⟨_, rfl, rfl, rfl, rfl, rfl, fun hy => absurd hy hin, fun _ => rfl⟩

/-- C8 on the empty state: `Initialize` returns, and the `"assetclear"` closure it bound,
invoked in the state it left, keeps `singleton`. -/
theorem assetclear_clears_all_witness :
    World.empty.singleton = none ∧
    ∃ w1 s, Initialize Env.failing (some 0) World.empty = .returned none w1 ∧
      w1.singleton = some s ∧
      ((Action.assetclear s.archiveManager s.fileManager s.paletteManager
          s.paletteTransformManager s.animationManager s.fontManager).invoke false
          w1).singleton = some s := by
  refine ⟨rfl, ?_⟩
  obtain ⟨w1, s, h1, h2, -, -, h3⟩ := assetclear_clears_all Env.failing 0 World.empty rfl
  exact ⟨w1, s, h1, h2, by rw [(h3 w1 false).1, h2]⟩

theorem infix_of_append (pre mid post : String) :
    mid.data <:+: (pre ++ mid ++ post).data :=
  ⟨pre.data, post.data, by simp [String.data_append]⟩

/-- C9, refuted as stated: in the initialized state left by `Initialize`, with managers
that fail with the error `"not found"`, `LoadArchive`, `LoadPalette`,
`LoadPaletteTransform`, `LoadAnimationWithTransparency` and `LoadFont` return that error
and leave the state as it is; the log is still empty, so no entry with the path and the
message has been written. -/
theorem facade_load_error_not_logged :
    World.started.singleton = some (freshSingleton 0) ∧
    World.started.log = [] ∧
    LoadArchive Env.failing "d2data.mpq" World.started =
      .returned (none, some "not found") World.started ∧
    LoadPalette Env.failing "act1.dat" World.started =
      .returned (none, some "not found") World.started ∧
    LoadPaletteTransform Env.failing "act1.pl2" World.started =
      .returned (none, some "not found") World.started ∧
    LoadAnimationWithTransparency Env.failing "cursor.dc6" "act1.dat" 255 World.started =
      .returned (none, some "not found") World.started ∧
    LoadFont Env.failing "font.tbl" "font.dc6" "act1.dat" World.started =
      .returned (none, some "not found") World.started ∧
    (LoadArchive Env.failing "d2data.mpq" World.started).world.log = [] :=
  ⟨rfl, rfl, rfl, rfl, rfl, rfl, rfl, rfl⟩

/-- C9, amended. With the managers as parameters and the log of the facade as an explicit
trace, called while initialized: `LoadFile` and `LoadFileStream` return the data value and
the error of the manager unchanged and, when that error is non-nil, first append to the
log one entry that contains the failing path and the message of the error (and none when
it is nil); `LoadArchive`, `LoadPalette`, `LoadPaletteTransform`,
`LoadAnimationWithTransparency` and `LoadFont` return the data value and the error of the
manager unchanged, in the state the manager left (the facade writes no log entry). -/
theorem load_error_logging (env : Env) (w : World) (s : assetManager)
    (h : w.singleton = some s) :
    (∀ filePath data err w1,
      env.loadFile s.fileManager filePath w = ((data, err), w1) →
      (∀ message, err = some message →
        LoadFile env filePath w = .returned (data, some message)
          { w1 with log := w1.log ++
              ["error loading file " ++ filePath ++ " (" ++ message ++ ")"] } ∧
        filePath.data <:+:
          ("error loading file " ++ filePath ++ " (" ++ message ++ ")").data ∧
        message.data <:+:
          ("error loading file " ++ filePath ++ " (" ++ message ++ ")").data) ∧
      (err = none → LoadFile env filePath w = .returned (data, none) w1)) ∧
    (∀ filePath data err w1,
      env.loadFileStream s.fileManager filePath w = ((data, err), w1) →
      (∀ message, err = some message →
        LoadFileStream env filePath w = .returned (data, some message)
          { w1 with log := w1.log ++
              ["error loading file stream " ++ filePath ++ " (" ++ message ++ ")"] } ∧
        filePath.data <:+:
          ("error loading file stream " ++ filePath ++ " (" ++ message ++ ")").data ∧
        message.data <:+:
          ("error loading file stream " ++ filePath ++ " (" ++ message ++ ")").data) ∧
      (err = none → LoadFileStream env filePath w = .returned (data, none) w1)) ∧
    (∀ archivePath r w1, env.loadArchive s.archiveManager archivePath w = (r, w1) →
      LoadArchive env archivePath w = .returned r w1) ∧
    (∀ palettePath r w1, env.loadPalette s.paletteManager palettePath w = (r, w1) →
      LoadPalette env palettePath w = .returned r w1) ∧
    (∀ pl2Path r w1, env.loadPaletteTransform s.paletteTransformManager pl2Path w = (r, w1) →
      LoadPaletteTransform env pl2Path w = .returned r w1) ∧
    (∀ animationPath palettePath transparency r w1,
      env.loadAnimation s.animationManager animationPath palettePath transparency w =
        (r, w1) →
      LoadAnimationWithTransparency env animationPath palettePath transparency w =
        .returned r w1) ∧
    (∀ tablePath spritePath palettePath r w1,
      env.loadFont s.fontManager tablePath spritePath palettePath w = (r, w1) →
      LoadFont env tablePath spritePath palettePath w = .returned r w1) := by
  have hv := verifyWasInit_of_init h
  have hd : derefSingleton w = .returned s w := by simp [derefSingleton, h]
  refine ⟨?_, ?_, ?_, ?_, ?_, ?_, ?_⟩
  · intro filePath data err w1 hload
    refine ⟨fun message hm => ⟨?_, ?_, ?_⟩, fun hn => ?_⟩
    · subst hm
      simp [LoadFile, hv, hd, Outcome.bind, hload, logLoadError]
    · exact ⟨"error loading file ".data, (" (" ++ message ++ ")").data,
        by simp [String.data_append]⟩
    · simpa [String.append_assoc] using
        infix_of_append ("error loading file " ++ filePath ++ " (") message ")"
    · subst hn
      simp [LoadFile, hv, hd, Outcome.bind, hload]
  · intro filePath data err w1 hload
    refine ⟨fun message hm => ⟨?_, ?_, ?_⟩, fun hn => ?_⟩
    · subst hm
      simp [LoadFileStream, hv, hd, Outcome.bind, hload, logLoadError]
    · exact ⟨"error loading file stream ".data, (" (" ++ message ++ ")").data,
        by simp [String.data_append]⟩
    · simpa [String.append_assoc] using
        infix_of_append ("error loading file stream " ++ filePath ++ " (") message ")"
    · subst hn
      simp [LoadFileStream, hv, hd, Outcome.bind, hload]
  all_goals
    intros
    simp [LoadArchive, LoadPalette, LoadPaletteTransform, LoadAnimationWithTransparency,
      LoadFont, hv, hd, Outcome.bind, *]

/-- C9 amended, on the initialized state left by `Initialize` with a file manager that
fails with the error `"not found"`: `LoadFile` returns that error and writes one log entry
with the path and the message. -/
theorem load_error_logging_witness :
    World.started.singleton = some (freshSingleton 0) ∧
    Env.failing.loadFile (freshSingleton 0).fileManager "levels.txt" World.started =
      (([], some "not found"), World.started) ∧
    LoadFile Env.failing "levels.txt" World.started =
      .returned ([], some "not found")
        { World.started with log := World.started.log ++
            ["error loading file " ++ "levels.txt" ++ " (" ++ "not found" ++ ")"] } ∧
    (LoadFile Env.failing "levels.txt" World.started).world.log =
      ["error loading file levels.txt (not found)"] := by
  have h := ((load_error_logging Env.failing World.started (freshSingleton 0) rfl).1
    "levels.txt" [] (some "not found") World.started rfl).1 "not found" rfl
  exact ⟨rfl, rfl, h.1, by rw [h.1]; decide⟩

end d2asset

end OpenDiablo2
